import Mathlib

/-!
Verification of the transfer/ledger subsystem of the bankapp backend.

The development shallowly embeds the TypeScript routes and Mongoose
models that move money: the OTP-gated transfer execution route, the
bill-payment route, the shared transaction-recording service, and the
admin correction endpoints (credit, backdate, delete).  Mongoose
collections become lists, the unique index on the transaction
reference becomes an explicit membership test on insert, bcrypt is
modelled by an injective tagging function, and the millisecond clock
(Date.now) is passed in explicitly.
-/

namespace BankApp

/-!
JavaScript numbers.  Monetary values travel through the routes as the
result of parseFloat on the request payload.  We model them as exact
rationals extended with NaN and the two infinities, with the
comparison and arithmetic semantics JavaScript exposes (comparisons
with NaN are false; infinity minus infinity is NaN).  Rounding of
finite doubles is not modelled: the claims under check are about
comparisons, sums and differences of ordinary currency amounts.
-/

inductive JsNum where
  | nan : JsNum
  | posInf : JsNum
  | negInf : JsNum
  | fin : ℚ → JsNum
deriving DecidableEq, Repr

namespace JsNum

/-- the JavaScript isNaN test on an already-parsed number -/
def isNaN : JsNum → Bool
  | nan => true
  | _ => false

/-- strict less-than with IEEE semantics: any comparison with NaN is false -/
def lt : JsNum → JsNum → Bool
  | nan, _ => false
  | _, nan => false
  | negInf, negInf => false
  | negInf, _ => true
  | _, negInf => false
  | posInf, _ => false
  | fin _, posInf => true
  | fin a, fin b => a < b

/-- non-strict less-than with IEEE semantics: any comparison with NaN is false -/
def le : JsNum → JsNum → Bool
  | nan, _ => false
  | _, nan => false
  | negInf, _ => true
  | _, negInf => false
  | _, posInf => true
  | posInf, _ => false
  | fin a, fin b => a ≤ b

end JsNum

/-- rational addition computed through mkRat, so that concrete runs
reduce inside the kernel (the Add instance of the rationals is marked
irreducible); qadd_eq_add certifies it is ordinary addition -/
def qadd (a b : ℚ) : ℚ := mkRat (a.num * b.den + b.num * a.den) (a.den * b.den)

theorem qadd_eq_add (a b : ℚ) : qadd a b = a + b := by
  rw [qadd, Rat.mkRat_eq_div]
  have ha : (a.den : ℚ) ≠ 0 := by
    exact_mod_cast a.den_nz
  have hb : (b.den : ℚ) ≠ 0 := by
    exact_mod_cast b.den_nz
  conv_rhs => rw [← Rat.num_div_den a, ← Rat.num_div_den b, div_add_div _ _ ha hb]
  push_cast
  ring_nf

namespace JsNum

/-- JavaScript unary minus -/
def neg : JsNum → JsNum
  | nan => nan
  | posInf => negInf
  | negInf => posInf
  | fin q => fin (-q)

/-- JavaScript addition on numbers -/
def add : JsNum → JsNum → JsNum
  | nan, _ => nan
  | _, nan => nan
  | posInf, negInf => nan
  | negInf, posInf => nan
  | posInf, _ => posInf
  | _, posInf => posInf
  | negInf, _ => negInf
  | _, negInf => negInf
  | fin a, fin b => fin (qadd a b)

/-- JavaScript subtraction: a - b is a + (-b), so infinity minus infinity is NaN -/
def sub (a b : JsNum) : JsNum := a.add b.neg

end JsNum

/-!
Data model, from the Mongoose schemas.  Object ids are modelled as a
running counter on the store; timestamps are milliseconds as naturals.
-/

inductive TxType where
  | deposit : TxType
  | withdrawal : TxType
  | transfer : TxType
  | payment : TxType
deriving DecidableEq, Repr

inductive TxStatus where
  | pending : TxStatus
  | completed : TxStatus
  | failed : TxStatus
deriving DecidableEq, Repr

/-- recipientDetails subdocument of BankTransaction and Receipt -/
structure RecipientDetails where
  accountName : Option String
  accountNumber : Option String
  bankName : Option String
  bankAddress : Option String
  swiftIban : Option String
  email : Option String
  phone : Option String
deriving DecidableEq, Repr

/-- one entry of BankTransaction.modificationHistory; the changes object
holds the from/to pair the pre-save hook records for createdAt -/
structure ModRecord where
  date : Nat
  changedBy : String
  changesFrom : Nat
  changesTo : Nat
deriving DecidableEq, Repr

/-- BankTransaction document (models/BankTransaction.ts) -/
structure Transaction where
  id : Nat
  userId : String
  accountNumber : String
  amount : JsNum
  currency : String
  type : TxType
  transferType : Option String
  recipientDetails : Option RecipientDetails
  description : String
  balanceAfter : JsNum
  recipientAccount : Option String
  reference : String
  status : TxStatus
  createdAt : Nat
  updatedAt : Nat
  originalDate : Option Nat
  lastModifiedBy : Option String
  modificationHistory : List ModRecord
deriving DecidableEq, Repr

/-- Receipt document (models/receipt).  The transactionId field is a plain
string in practice: the transfer route stores the transaction id rendered
as a string while transactionService stores the transaction reference. -/
structure Receipt where
  transactionId : String
  reference : String
  userId : String
  accountNumber : String
  amount : JsNum
  type : TxType
  description : String
  balanceAfter : JsNum
  recipientDetails : Option RecipientDetails
  status : String
  currency : String
  transactionDate : Nat
deriving DecidableEq, Repr

/-- AccountSummary row.  The schema file itself is not in the snapshot;
the fields are the ones every route reads and writes, zero-initialised.
Modelled from the spec: AccountSummary caches current/available balance
and monthly aggregates per (user, account), created lazily on first use. -/
structure AccountSummary where
  userId : String
  accountNumber : String
  currentBalance : JsNum
  availableBalance : JsNum
  totalDeposits : JsNum
  totalWithdrawals : JsNum
  netChange : JsNum
  lastTransactionDate : Nat
  currency : String
deriving DecidableEq, Repr

/-- an embedded account of a user (models/User.ts accountSchema) -/
structure Account where
  accountNumber : String
  accountName : String
  balance : JsNum
  currency : String
deriving DecidableEq, Repr

/-- the slice of the User document the transfer routes touch -/
structure BUser where
  id : String
  email : String
  accounts : List Account
  transferOtp : Option String
  transferOtpExpires : Option Nat
deriving DecidableEq, Repr

/-- one entry of the global in-memory otpStore used by bill payments -/
structure OtpEntry where
  userId : String
  otp : String
  expires : Nat
deriving DecidableEq, Repr

/-- DeletedTransaction document (models/DeletedTransaction.ts); it carries
exactly the fields its schema declares plus the deletion stamp -/
structure DeletedTx where
  userId : String
  accountNumber : String
  amount : JsNum
  type : TxType
  description : String
  balanceAfter : JsNum
  recipientAccount : Option String
  reference : String
  status : TxStatus
  currency : String
  transferType : Option String
  recipientDetails : Option RecipientDetails
  originalTransactionId : Nat
  deletedBy : String
  deletionReason : String
  deletedAt : Nat
deriving DecidableEq, Repr

/-- the whole persistent state the modelled routes read and write -/
structure Bank where
  users : List BUser
  transactions : List Transaction
  receipts : List Receipt
  summaries : List AccountSummary
  deleted : List DeletedTx
  otpStore : List OtpEntry
  nextId : Nat
deriving DecidableEq, Repr

/-!
List helpers with the semantics of the Mongo single-document
operations: updateOne / findOneAndUpdate touch the first matching
document, deleteOne removes the first matching document.
-/

/-- replace the first element satisfying p by its image under f -/
def updateFirst (p : α → Bool) (f : α → α) : List α → List α
  | [] => []
  | x :: xs => if p x then f x :: xs else x :: updateFirst p f xs

/-- remove the first element satisfying p -/
def eraseFirst (p : α → Bool) : List α → List α
  | [] => []
  | x :: xs => if p x then xs else x :: eraseFirst p xs

/-!
Store access helpers.
-/

/-- User.findById -/
def findUser (b : Bank) (uid : String) : Option BUser :=
  b.users.find? (fun u => u.id == uid)

/-- User.findOne on the email field -/
def findUserByEmail (b : Bank) (em : String) : Option BUser :=
  b.users.find? (fun u => u.email == em)

/-- save of a (possibly modified) user document, keyed by its id -/
def saveUser (b : Bank) (u : BUser) : Bank :=
  { b with users := updateFirst (fun v => v.id == u.id) (fun _ => u) b.users }

/-- User.findOne on accounts.accountNumber: does any account with this
number exist in the bank (recipient lookup for internal transfers) -/
def accountExists (b : Bank) (acct : String) : Bool :=
  b.users.any (fun u => u.accounts.any (fun a => a.accountNumber == acct))

/-- does a live transaction with the given reference exist (the unique
index on BankTransaction.reference guards inserts against these) -/
def refExists (b : Bank) (r : String) : Bool :=
  b.transactions.any (fun t => t.reference == r)

/-- BankTransaction.findById -/
def findTx (b : Bank) (txId : Nat) : Option Transaction :=
  b.transactions.find? (fun t => t.id == txId)

/-- AccountSummary.findOne on (userId, accountNumber) -/
def findSummary (b : Bank) (uid acct : String) : Option AccountSummary :=
  b.summaries.find? (fun s => s.userId == uid && s.accountNumber == acct)

/-- a fresh AccountSummary row as upsert creates it, all aggregates zero.
Modelled from the spec: the AccountSummary schema file is absent from the
snapshot; per the spec the summary row is created lazily with zeroed
balance and monthly statistics when the first update touches it. -/
def freshSummary (uid acct : String) : AccountSummary :=
  { userId := uid, accountNumber := acct, currentBalance := .fin 0,
    availableBalance := .fin 0, totalDeposits := .fin 0,
    totalWithdrawals := .fin 0, netChange := .fin 0,
    lastTransactionDate := 0, currency := "USD" }

/-- AccountSummary.findOneAndUpdate with upsert and new: apply f to the
first matching row, or to a fresh zeroed row appended at the end, and
return the updated row together with the new store -/
def upsertSummaryGet (b : Bank) (uid acct : String)
    (f : AccountSummary → AccountSummary) : AccountSummary × Bank :=
  match b.summaries.find? (fun s => s.userId == uid && s.accountNumber == acct) with
  | some s =>
    (f s, { b with summaries :=
        updateFirst (fun s => s.userId == uid && s.accountNumber == acct) f b.summaries })
  | none =>
    (f (freshSummary uid acct),
      { b with summaries := b.summaries ++ [f (freshSummary uid acct)] })

/-- AccountSummary.findOneAndUpdate with upsert when the returned document
is discarded -/
def upsertSummary (b : Bank) (uid acct : String)
    (f : AccountSummary → AccountSummary) : Bank :=
  (upsertSummaryGet b uid acct f).2

/-- the balance the current summary row shows, zero when the row is absent -/
def summaryBalance (b : Bank) (uid acct : String) : JsNum :=
  match findSummary b uid acct with
  | some s => s.currentBalance
  | none => .fin 0

/-!
The bcrypt collaborator.  Only its observable contract matters: compare
of a submitted code against a stored hash succeeds exactly when the hash
was produced from that code.  An injective tagging function captures it.
-/

/-- stand-in for the salted bcrypt hash of an OTP code -/
def hashOtp (code : String) : String := "bcrypt$" ++ code

/-- stand-in for bcrypt.compare of a plaintext code against a stored hash -/
def bcryptCompare (code stored : String) : Bool := stored == hashOtp code

/-- the currency || fallback idiom: an absent or empty currency reads USD -/
def orUSD (c : String) : String := if c == "" then "USD" else c

/-- the shared amount validation of every money route:
isNaN(numericAmount) || numericAmount <= 0 -/
def amountInvalid (n : JsNum) : Bool := n.isNaN || n.le (.fin 0)

/-- the inc/set document the two debit routes apply to the account
summary: decrement current and available balance, count the withdrawal,
stamp the date and currency -/
def debitSummaryUpdate (amt : JsNum) (now : Nat) (curr : String)
    (s : AccountSummary) : AccountSummary :=
  { s with
    currentBalance := s.currentBalance.sub amt,
    availableBalance := s.availableBalance.sub amt,
    totalWithdrawals := s.totalWithdrawals.add amt,
    netChange := s.netChange.sub amt,
    lastTransactionDate := now, currency := curr }

/-- the inc/set document the admin credit route applies to the account
summary -/
def creditSummaryUpdate (amt : JsNum) (now : Nat)
    (s : AccountSummary) : AccountSummary :=
  { s with
    currentBalance := s.currentBalance.add amt,
    availableBalance := s.availableBalance.add amt,
    totalDeposits := s.totalDeposits.add amt,
    netChange := s.netChange.add amt,
    lastTransactionDate := now }

/-!
The transfer execution route with OTP (step 2 of the two-step flow).
Request fields are Options: none models an absent field.  The raw
falsiness test on the amount field collapses into the numeric check,
because a raw zero fails both in the code and in the model before any
write happens.
-/

structure TransferReq where
  otp : Option String
  bankName : Option String
  toAccount : Option String
  amount : Option JsNum
  description : Option String
  transferType : Option String
  accountName : Option String
  bankAddress : Option String
  swiftIban : Option String
  email : Option String
  phone : Option String
deriving DecidableEq, Repr

/-- a request with every field absent, for building concrete examples -/
def TransferReq.empty : TransferReq :=
  { otp := none, bankName := none, toAccount := none, amount := none,
    description := none, transferType := none, accountName := none,
    bankAddress := none, swiftIban := none, email := none, phone := none }

/-- the destructuring default of the routes: transferType falls back to
domestic when the field is absent -/
def TransferReq.tt (req : TransferReq) : String :=
  req.transferType.getD "domestic"

/-- the recipientDetails object the transfer route builds: the account
name falls back per transfer type, and the international-only fields are
spread in only for international transfers -/
def transferRecipientDetails (req : TransferReq) (toAcct : String) :
    RecipientDetails :=
  { accountName := some (req.accountName.getD
      (if req.tt == "internal" then "Internal Recipient"
       else req.bankName.getD "External Recipient")),
    accountNumber := some toAcct,
    bankName := if req.tt == "international" then req.bankName else none,
    bankAddress := if req.tt == "international" then req.bankAddress else none,
    swiftIban := if req.tt == "international" then req.swiftIban else none,
    email := if req.tt == "international" then req.email else none,
    phone := if req.tt == "international" then req.phone else none }

/-- the default description of the transfer route -/
def transferDescription (req : TransferReq) (toAcct : String) : String :=
  req.description.getD
    (if req.tt == "international" then
      "International transfer to " ++ req.accountName.getD ""
     else "Transfer to " ++ toAcct)

inductive TransferError where
  | otpRequired : TransferError
  | noPendingTransfer : TransferError
  | otpExpired : TransferError
  | invalidOtp : TransferError
  | missingFields : TransferError
  | missingIntlFields : TransferError
  | invalidAmount : TransferError
  | noAccount : TransferError
  | insufficientFunds : TransferError
  | recipientNotFound : TransferError
  | duplicateReference : TransferError
deriving DecidableEq, Repr

/-- the success payload of the transfer execution route -/
structure TransferOk where
  newBalance : JsNum
  currency : String
  transferType : String
  reference : String
deriving DecidableEq, Repr

/-- router.post of the OTP transfer route: verify the OTP, re-validate,
commit the transaction, receipt, balance and summary writes in the order
of the source, and clear the OTP.  A duplicate reference makes
BankTransaction.create throw; the catch clause then clears the OTP and
answers with a generic failure. -/
def executeTransfer (b : Bank) (uid : String) (req : TransferReq) (now : Nat) :
    Except TransferError TransferOk × Bank :=
  match req.otp with
  | none => (.error .otpRequired, b)
  | some otp =>
    match findUser b uid with
    | none => (.error .noPendingTransfer, b)
    | some user =>
      match user.transferOtp, user.transferOtpExpires with
      | some otpHash, some otpExp =>
        if otpExp < now then
          (.error .otpExpired,
            saveUser b { user with transferOtp := none, transferOtpExpires := none })
        else if ¬ bcryptCompare otp otpHash then (.error .invalidOtp, b)
        else
          match req.toAccount, req.amount with
          | some toAcct, some rawAmount =>
            if req.tt == "international" ∧
                (req.accountName.isNone ∨ req.bankName.isNone ∨ req.swiftIban.isNone) then
              (.error .missingIntlFields, b)
            else if amountInvalid rawAmount then (.error .invalidAmount, b)
            else
              match user.accounts with
              | [] => (.error .noAccount, b)
              | primary :: rest =>
                let currency := orUSD primary.currency
                if JsNum.lt primary.balance rawAmount then
                  (.error .insufficientFunds, b)
                else if req.tt == "internal" ∧ ¬ accountExists b toAcct then
                  (.error .recipientNotFound, b)
                else
                  let newBalance := primary.balance.sub rawAmount
                  let rd : RecipientDetails := transferRecipientDetails req toAcct
                  let desc := transferDescription req toAcct
                  let reference := "TRX-" ++ toString now
                  if refExists b reference then
                    (.error .duplicateReference,
                      saveUser b { user with transferOtp := none, transferOtpExpires := none })
                  else
                    let tx : Transaction :=
                      { id := b.nextId, userId := uid,
                        accountNumber := primary.accountNumber,
                        amount := rawAmount.neg, currency := currency,
                        type := .transfer, transferType := some req.tt,
                        recipientDetails := some rd, description := desc,
                        balanceAfter := newBalance, recipientAccount := some toAcct,
                        reference := reference, status := .completed,
                        createdAt := now, updatedAt := now,
                        originalDate := some now, lastModifiedBy := none,
                        modificationHistory := [] }
                    let rc : Receipt :=
                      { transactionId := toString tx.id, reference := reference,
                        userId := uid, accountNumber := primary.accountNumber,
                        amount := rawAmount.neg, type := .transfer,
                        description := desc, balanceAfter := newBalance,
                        recipientDetails := some rd, status := "completed",
                        currency := currency, transactionDate := now }
                    let user2 : BUser :=
                      { user with
                        accounts := { primary with balance := newBalance } :: rest,
                        transferOtp := none, transferOtpExpires := none }
                    let b2 := { b with
                      transactions := tx :: b.transactions,
                      receipts := rc :: b.receipts,
                      nextId := b.nextId + 1 }
                    let b3 := saveUser b2 user2
                    let b4 := upsertSummary b3 uid primary.accountNumber
                      (debitSummaryUpdate rawAmount now currency)
                    (.ok { newBalance := newBalance, currency := currency,
                           transferType := req.tt, reference := reference }, b4)
          | _, _ => (.error .missingFields, b)
      | _, _ => (.error .noPendingTransfer, b)

/-!
The shared transaction recording service
(services/transactionService.ts createTransaction).  It creates the
transaction and then one receipt whose transactionId is the transaction
REFERENCE, not its object id.  A duplicate reference trips the unique
index and the insert throws, surfaced here as the error case.
-/

/-- createTransaction of transactionService: one transaction plus one
receipt keyed by the reference string -/
def createTransactionSvc (b : Bank) (uid acct : String) (amount : JsNum)
    (type : TxType) (desc : String) (balanceAfter : JsNum) (reference : String)
    (recipientAccount : Option String) (currency : String)
    (transferType : Option String) (rd : Option RecipientDetails) (now : Nat) :
    Except Unit (Transaction × Bank) :=
  if refExists b reference then .error ()
  else
    let tx : Transaction :=
      { id := b.nextId, userId := uid, accountNumber := acct,
        amount := amount, currency := currency, type := type,
        transferType := transferType, recipientDetails := rd,
        description := desc, balanceAfter := balanceAfter,
        recipientAccount := recipientAccount, reference := reference,
        status := .completed, createdAt := now, updatedAt := now,
        originalDate := some now, lastModifiedBy := none,
        modificationHistory := [] }
    let rc : Receipt :=
      { transactionId := reference, reference := reference, userId := uid,
        accountNumber := acct, amount := amount, type := type,
        description := desc, balanceAfter := balanceAfter,
        recipientDetails := rd, status := "completed", currency := currency,
        transactionDate := tx.createdAt }
    .ok (tx, { b with transactions := tx :: b.transactions,
                      receipts := rc :: b.receipts, nextId := b.nextId + 1 })

/-!
The bill payment route (routes/billPaymentRoutes.ts).  OTP codes live in
the global in-memory otpStore in plaintext.  After recording through the
service the route creates a SECOND receipt inline, this one keyed by the
transaction object id.
-/

structure BillPayReq where
  billerId : Option String
  amount : Option JsNum
  reference : Option String
  billerName : Option String
  otp : Option String
deriving DecidableEq, Repr

inductive BillPayError where
  | missingFields : BillPayError
  | invalidAmount : BillPayError
  | invalidOtp : BillPayError
  | userNotFound : BillPayError
  | noAccount : BillPayError
  | insufficientFunds : BillPayError
  | invalidBiller : BillPayError
  | paymentFailed : BillPayError
deriving DecidableEq, Repr

structure BillPayOk where
  newBalance : JsNum
  currency : String
  reference : String
deriving DecidableEq, Repr

/-- the static biller catalog: id, name, accountNumber -/
def billers : List (String × String × String) :=
  [("1", "Electricity Company", "ELEC-12345"),
   ("2", "Water Corporation", "WATER-67890"),
   ("3", "Internet Provider", "NET-54321"),
   ("4", "Cable TV", "TV-98765"),
   ("5", "Mobile Carrier", "MOBILE-13579")]

/-- router.post of the bill payment route: plaintext OTP check against the
in-memory store (consumed before the balance check), then record through
createTransaction, add the second inline receipt, debit and update the
summary -/
def billPay (b : Bank) (uid : String) (req : BillPayReq) (now : Nat) :
    Except BillPayError BillPayOk × Bank :=
  match req.billerId, req.amount, req.otp with
  | some billerId, some rawAmount, some otp =>
    if amountInvalid rawAmount then (.error .invalidAmount, b)
    else
      match b.otpStore.find? (fun e => e.userId == uid) with
      | none => (.error .invalidOtp, b)
      | some entry =>
        if entry.otp != otp ∨ entry.expires < now then (.error .invalidOtp, b)
        else
          let b1 := { b with otpStore := eraseFirst (fun e => e.userId == uid) b.otpStore }
          match findUser b1 uid with
          | none => (.error .userNotFound, b1)
          | some user =>
            match user.accounts with
            | [] => (.error .noAccount, b1)
            | primary :: rest =>
              let currency := orUSD primary.currency
              if JsNum.lt primary.balance rawAmount then
                (.error .insufficientFunds, b1)
              else
                match billers.find? (fun e => e.1 == billerId) with
                | none => (.error .invalidBiller, b1)
                | some biller =>
                  let newBalance := primary.balance.sub rawAmount
                  let reference := req.reference.getD ("BILL-" ++ toString now)
                  let desc := "Bill payment to " ++ biller.2.1
                  match createTransactionSvc b1 uid primary.accountNumber
                      rawAmount.neg .payment desc newBalance reference
                      (some biller.2.2) currency none
                      (some { accountName := some biller.2.1,
                              accountNumber := some biller.2.2,
                              bankName := none, bankAddress := none,
                              swiftIban := none, email := none, phone := none })
                      now with
                  | .error _ => (.error .paymentFailed, b1)
                  | .ok (tx, b2) =>
                    let rc2 : Receipt :=
                      { transactionId := toString tx.id, reference := tx.reference,
                        userId := uid, accountNumber := primary.accountNumber,
                        amount := rawAmount.neg, type := .payment,
                        description := desc, balanceAfter := newBalance,
                        recipientDetails :=
                          some { accountName := some biller.2.1,
                                 accountNumber := some biller.2.2,
                                 bankName := none, bankAddress := none,
                                 swiftIban := none, email := none, phone := none },
                        status := "completed", currency := currency,
                        transactionDate := now }
                    let b3 := { b2 with receipts := rc2 :: b2.receipts }
                    let user2 : BUser :=
                      { user with accounts := { primary with balance := newBalance } :: rest }
                    let b4 := saveUser b3 user2
                    let b5 := upsertSummary b4 uid primary.accountNumber
                      (debitSummaryUpdate rawAmount now currency)
                    (.ok { newBalance := newBalance, currency := currency,
                           reference := tx.reference }, b5)
  | _, _, _ => (.error .missingFields, b)

/-!
Admin credit (routes/adminRoutes.ts router.post on credit).  The only
amount validation is the NaN test; the increment is applied to the
matching embedded account with no sign or funds check, and the movement
is recorded as a deposit whose balanceAfter is the SUMMARY balance.
-/

structure CreditReq where
  userEmail : Option String
  accountNumber : Option String
  amount : Option JsNum
  description : Option String
deriving DecidableEq, Repr

inductive CreditError where
  | missingFields : CreditError
  | invalidAmount : CreditError
  | userNotFound : CreditError
  | accountNotFound : CreditError
  | serverError : CreditError
deriving DecidableEq, Repr

structure CreditOk where
  newBalance : JsNum
deriving DecidableEq, Repr

/-- router.post of the admin credit route -/
def adminCredit (b : Bank) (req : CreditReq) (now : Nat) :
    Except CreditError CreditOk × Bank :=
  match req.userEmail, req.accountNumber, req.amount with
  | some em, some acct, some rawAmount =>
    if rawAmount.isNaN then (.error .invalidAmount, b)
    else
      match findUserByEmail b em with
      | none => (.error .userNotFound, b)
      | some user =>
        if ¬ user.accounts.any (fun a => a.accountNumber == acct) then
          (.error .accountNotFound, b)
        else
          let newAccounts :=
            updateFirst (fun a => a.accountNumber == acct)
              (fun a => { a with balance := a.balance.add rawAmount })
              user.accounts
          let user2 : BUser := { user with accounts := newAccounts }
          let b1 := saveUser b user2
          let sb := upsertSummaryGet b1 user.id acct
            (creditSummaryUpdate rawAmount now)
          let reference := "ADMIN-CREDIT-" ++ toString now
          if refExists sb.2 reference then
            (.error .serverError, sb.2)
          else
            let tx : Transaction :=
              { id := sb.2.nextId, userId := user.id, accountNumber := acct,
                amount := rawAmount, currency := "USD", type := .deposit,
                transferType := none, recipientDetails := none,
                description := req.description.getD "Admin credit",
                balanceAfter := sb.1.currentBalance, recipientAccount := none,
                reference := reference, status := .completed, createdAt := now,
                updatedAt := now, originalDate := some now,
                lastModifiedBy := none, modificationHistory := [] }
            (.ok { newBalance := sb.1.currentBalance },
              { sb.2 with transactions := tx :: sb.2.transactions,
                          nextId := sb.2.nextId + 1 })
  | _, _, _ => (.error .missingFields, b)

/-!
Admin backdate (routes/adminRoutes.ts router.post on
backdate-transaction) together with the pre-save hook of
BankTransactionSchema that appends the modification history entry.
-/

inductive BackdateError where
  | futureDate : BackdateError
  | notFound : BackdateError
deriving DecidableEq, Repr

/-- the route body plus the pre-save hook applied to one transaction
document: preserve originalDate on first modification only, move
createdAt, and append a history entry when createdAt actually changed
(mongoose marks the path modified only when the assigned value differs).
The hook reads changes.from through get on the already-reassigned
document, so the recorded pair has from equal to to. -/
def backdatedTx (t : Transaction) (newDate : Nat) (adminId : String) (now : Nat) :
    Transaction :=
  let orig := t.originalDate.getD t.createdAt
  let hist :=
    if newDate ≠ t.createdAt then
      t.modificationHistory ++
        [{ date := now, changedBy := adminId,
           changesFrom := newDate, changesTo := newDate }]
    else t.modificationHistory
  { t with createdAt := newDate, originalDate := some orig,
           lastModifiedBy := some adminId, updatedAt := now,
           modificationHistory := hist }

/-- router.post of the backdate route: reject future dates and missing
transactions, then update the transaction, patch the linked receipt
(matched by the transaction id) and touch the summary -/
def backdateTransaction (b : Bank) (txId : Nat) (newDate : Nat)
    (adminId : String) (now : Nat) : Except BackdateError Unit × Bank :=
  if now < newDate then (.error .futureDate, b)
  else
    match findTx b txId with
    | none => (.error .notFound, b)
    | some tx0 =>
      let newTxs :=
        updateFirst (fun t => t.id == txId)
          (fun t => backdatedTx t newDate adminId now) b.transactions
      let newReceipts :=
        updateFirst (fun r => r.transactionId == toString txId)
          (fun r => { r with transactionDate := newDate }) b.receipts
      let newSummaries :=
        updateFirst
          (fun s => s.userId == tx0.userId && s.accountNumber == tx0.accountNumber)
          (fun s => { s with lastTransactionDate := now }) b.summaries
      (.ok (), { b with transactions := newTxs, receipts := newReceipts,
                        summaries := newSummaries })

/-!
Admin delete (routes/adminRoutes.ts router.delete on
delete-transaction).  The receipt cleanup is Receipt.deleteOne keyed by
the transaction OBJECT ID, so only a receipt whose transactionId is that
id string is removed.
-/

inductive DeleteError where
  | notFound : DeleteError
deriving DecidableEq, Repr

/-- router.delete of the delete-transaction route: archive the schema
fields of the transaction into DeletedTransaction, remove the live
transaction by id, and remove the first receipt keyed by the id string -/
def deleteTransaction (b : Bank) (txId : Nat) (adminId : String) (now : Nat) :
    Except DeleteError Unit × Bank :=
  match findTx b txId with
  | none => (.error .notFound, b)
  | some tx =>
    let archived : DeletedTx :=
      { userId := tx.userId, accountNumber := tx.accountNumber,
        amount := tx.amount, type := tx.type, description := tx.description,
        balanceAfter := tx.balanceAfter, recipientAccount := tx.recipientAccount,
        reference := tx.reference, status := tx.status, currency := tx.currency,
        transferType := tx.transferType, recipientDetails := tx.recipientDetails,
        originalTransactionId := txId, deletedBy := adminId,
        deletionReason := "Admin deletion", deletedAt := now }
    (.ok (),
      { b with
        transactions := eraseFirst (fun t => t.id == txId) b.transactions,
        receipts := eraseFirst (fun r => r.transactionId == toString txId) b.receipts,
        deleted := archived :: b.deleted })

/-!
The operations, as a step relation over the store, used by the
system-wide invariants (balance non-negativity, reference uniqueness).
-/

inductive Op where
  | transferOp : String → TransferReq → Nat → Op
  | billPayOp : String → BillPayReq → Nat → Op
  | creditOp : CreditReq → Nat → Op
  | backdateOp : Nat → Nat → String → Nat → Op
  | deleteOp : Nat → String → Nat → Op
deriving DecidableEq, Repr

/-- the state reached after one request, whatever its response was -/
def applyOp (b : Bank) : Op → Bank
  | .transferOp uid req now => (executeTransfer b uid req now).2
  | .billPayOp uid req now => (billPay b uid req now).2
  | .creditOp req now => (adminCredit b req now).2
  | .backdateOp txId newDate adminId now =>
      (backdateTransaction b txId newDate adminId now).2
  | .deleteOp txId adminId now => (deleteTransaction b txId adminId now).2

/-- the debit operations: customer transfers and bill payments (the
repository has no standalone withdrawal endpoint; withdrawals exist only
as a transaction type) -/
def Op.isDebit : Op → Bool
  | .transferOp _ _ _ => true
  | .billPayOp _ _ _ => true
  | _ => false

/-- the shape of the balance invariant: no stored account balance of any
user compares less than zero -/
def balancesNonneg (b : Bank) : Bool :=
  b.users.all (fun u => u.accounts.all (fun a => !(JsNum.lt a.balance (.fin 0))))

/-- the reference strings of all live transactions -/
def txReferences (b : Bank) : List String :=
  b.transactions.map (fun t => t.reference)

/-- does a receipt point at this transaction, by either of the two keys
the code writes into transactionId (the id string or the reference) -/
def receiptRefersTo (rc : Receipt) (t : Transaction) : Bool :=
  rc.transactionId == toString t.id || rc.transactionId == t.reference

/-- how many live receipts point at this transaction -/
def receiptsFor (b : Bank) (t : Transaction) : Nat :=
  (b.receipts.filter (fun rc => receiptRefersTo rc t)).length

/-- how many live receipts point at this transaction AND carry its
amount, balance-after and currency -/
def matchingReceiptsFor (b : Bank) (t : Transaction) : Nat :=
  (b.receipts.filter (fun rc => receiptRefersTo rc t &&
    rc.amount == t.amount && rc.balanceAfter == t.balanceAfter &&
    rc.currency == t.currency)).length

/-!
Helper lemmas about the JavaScript arithmetic and the list primitives.
-/

/-- when the balance check did not fire and the amount passed validation,
the committed balance does not compare below zero -/
theorem JsNum.sub_not_lt_zero (bal amt : JsNum)
    (h1 : JsNum.lt bal amt = false) (h2 : amountInvalid amt = false) :
    JsNum.lt (bal.sub amt) (.fin 0) = false := by
  cases bal <;> cases amt <;>
    simp_all [JsNum.lt, JsNum.le, JsNum.sub, JsNum.add, JsNum.neg,
      JsNum.isNaN, amountInvalid, qadd_eq_add] <;> linarith

theorem mem_updateFirst {α : Type} {p : α → Bool} {f : α → α} {l : List α}
    {x : α} (hx : x ∈ updateFirst p f l) :
    x ∈ l ∨ ∃ y, y ∈ l ∧ p y = true ∧ x = f y := by
  induction l with
  | nil => simp [updateFirst] at hx
  | cons a as ih =>
    by_cases hp : p a = true
    · rw [updateFirst, if_pos hp] at hx
      rcases List.mem_cons.mp hx with hx | hx
      · exact Or.inr ⟨a, List.mem_cons_self a as, hp, hx⟩
      · exact Or.inl (List.mem_cons_of_mem a hx)
    · rw [updateFirst, if_neg hp] at hx
      rcases List.mem_cons.mp hx with hx | hx
      · exact Or.inl (hx ▸ List.mem_cons_self a as)
      · rcases ih hx with h | ⟨y, hy, hpy, hxy⟩
        · exact Or.inl (List.mem_cons_of_mem a h)
        · exact Or.inr ⟨y, List.mem_cons_of_mem a hy, hpy, hxy⟩

theorem eraseFirst_sublist {α : Type} (p : α → Bool) (l : List α) :
    (eraseFirst p l).Sublist l := by
  induction l with
  | nil => simp [eraseFirst]
  | cons a as ih =>
    by_cases hp : p a = true
    · simpa [eraseFirst, hp] using List.sublist_cons a as
    · simpa [eraseFirst, hp] using List.Sublist.cons₂ a ih

theorem map_updateFirst {α β : Type} (p : α → Bool) (f : α → α) (g : α → β)
    (l : List α) (hg : ∀ x, g (f x) = g x) :
    (updateFirst p f l).map g = l.map g := by
  induction l with
  | nil => rfl
  | cons a as ih =>
    by_cases hp : p a = true
    · simp [updateFirst, hp, hg]
    · simp [updateFirst, hp, ih]

theorem find?_updateFirst {α : Type} (p : α → Bool) (f : α → α) (l : List α)
    (x : α) (h : l.find? p = some x) (hp : p (f x) = true) :
    (updateFirst p f l).find? p = some (f x) := by
  induction l with
  | nil => simp at h
  | cons a as ih =>
    by_cases hpa : p a = true
    · rw [List.find?_cons_of_pos _ hpa] at h
      injection h with h
      subst h
      simp [updateFirst, hpa, List.find?_cons_of_pos _ hp]
    · rw [List.find?_cons_of_neg _ (by simp [hpa])] at h
      simp only [updateFirst, hpa, if_false, Bool.false_eq_true]
      rw [List.find?_cons_of_neg _ (by simp [hpa])]
      exact ih h

theorem upsertSummaryGet_users (b : Bank) (uid acct : String)
    (f : AccountSummary → AccountSummary) :
    (upsertSummaryGet b uid acct f).2.users = b.users := by
  unfold upsertSummaryGet
  split <;> rfl

theorem upsertSummaryGet_transactions (b : Bank) (uid acct : String)
    (f : AccountSummary → AccountSummary) :
    (upsertSummaryGet b uid acct f).2.transactions = b.transactions := by
  unfold upsertSummaryGet
  split <;> rfl

theorem upsertSummaryGet_receipts (b : Bank) (uid acct : String)
    (f : AccountSummary → AccountSummary) :
    (upsertSummaryGet b uid acct f).2.receipts = b.receipts := by
  unfold upsertSummaryGet
  split <;> rfl

theorem upsertSummary_users (b : Bank) (uid acct : String)
    (f : AccountSummary → AccountSummary) :
    (upsertSummary b uid acct f).users = b.users :=
  upsertSummaryGet_users b uid acct f

theorem upsertSummary_transactions (b : Bank) (uid acct : String)
    (f : AccountSummary → AccountSummary) :
    (upsertSummary b uid acct f).transactions = b.transactions :=
  upsertSummaryGet_transactions b uid acct f

/-- the invariant shape of a single user -/
def userBalancesNonneg (u : BUser) : Bool :=
  u.accounts.all (fun a => !(JsNum.lt a.balance (.fin 0)))

theorem balancesNonneg_def (b : Bank) :
    balancesNonneg b = b.users.all userBalancesNonneg := rfl

theorem balancesNonneg_of_users {b c : Bank} (h : balancesNonneg b = true)
    (huc : c.users = b.users) : balancesNonneg c = true := by
  rw [balancesNonneg_def, huc]
  exact h

/-- saving a user whose accounts satisfy the invariant preserves the
whole-store invariant -/
theorem balancesNonneg_saveUser {b : Bank} {v : BUser}
    (h : balancesNonneg b = true) (hv : userBalancesNonneg v = true) :
    balancesNonneg (saveUser b v) = true := by
  rw [balancesNonneg_def] at h ⊢
  rw [List.all_eq_true] at h ⊢
  intro u hu
  rcases mem_updateFirst hu with hmem | ⟨y, _, _, rfl⟩
  · exact h u hmem
  · exact hv

/-- a user found in a store satisfying the invariant satisfies it too -/
theorem userBalancesNonneg_of_find {b : Bank} {uid : String} {u : BUser}
    (h : balancesNonneg b = true) (hu : findUser b uid = some u) :
    userBalancesNonneg u = true := by
  rw [balancesNonneg_def, List.all_eq_true] at h
  exact h u (List.mem_of_find?_eq_some hu)

theorem userBalancesNonneg_iff (u : BUser) : userBalancesNonneg u = true ↔
    ∀ a ∈ u.accounts, JsNum.lt a.balance (.fin 0) = false := by
  simp [userBalancesNonneg]

/-- one transfer request, whatever its outcome, leaves every stored
balance not below zero -/
theorem executeTransfer_balances (b : Bank) (uid : String) (req : TransferReq)
    (now : Nat) (h : balancesNonneg b = true) :
    balancesNonneg (executeTransfer b uid req now).2 = true := by
  unfold executeTransfer
  split
  · exact h
  rename_i otp hreqotp
  split
  · exact h
  rename_i user hfind
  split
  all_goals try exact h
  rename_i otpHash otpExp heq1 heq2
  by_cases hexp : otpExp < now
  · rw [if_pos hexp]
    apply balancesNonneg_saveUser h
    have hu := userBalancesNonneg_of_find h hfind
    exact hu
  rw [if_neg hexp]
  by_cases hcmp : ¬ bcryptCompare otp otpHash = true
  · rw [if_pos hcmp]
    exact h
  rw [if_neg hcmp]
  split
  all_goals try exact h
  rename_i toAcct rawAmount heq3 heq4
  by_cases hintl : (req.tt == "international") = true ∧
      (req.accountName.isNone = true ∨ req.bankName.isNone = true ∨
        req.swiftIban.isNone = true)
  · rw [if_pos hintl]
    exact h
  rw [if_neg hintl]
  by_cases hvalid : amountInvalid rawAmount = true
  · rw [if_pos hvalid]
    exact h
  rw [if_neg hvalid]
  split
  · exact h
  rename_i primary rest haccounts
  simp only []
  by_cases hfunds : JsNum.lt primary.balance rawAmount = true
  · rw [if_pos hfunds]
    exact h
  rw [if_neg hfunds]
  by_cases hrec : (req.tt == "internal") = true ∧ ¬ accountExists b toAcct = true
  · rw [if_pos hrec]
    exact h
  rw [if_neg hrec]
  by_cases hdup : refExists b ("TRX-" ++ toString now) = true
  · rw [if_pos hdup]
    apply balancesNonneg_saveUser h
    have hu := userBalancesNonneg_of_find h hfind
    exact hu
  rw [if_neg hdup]
  refine balancesNonneg_of_users ?_ (upsertSummary_users _ _ _ _)
  apply balancesNonneg_saveUser
  · exact balancesNonneg_of_users h rfl
  · rw [userBalancesNonneg_iff]
    intro a ha
    rcases List.mem_cons.mp ha with rfl | hmem
    · exact JsNum.sub_not_lt_zero _ _ (by simpa using hfunds) (by simpa using hvalid)
    · have huserOK := (userBalancesNonneg_iff user).mp
        (userBalancesNonneg_of_find h hfind)
      apply huserOK
      rw [haccounts]
      exact List.mem_cons_of_mem _ hmem

/-- inversion of a successful createTransaction call: the users are
untouched -/
theorem createTransactionSvc_ok_users {b b2 : Bank} {uid acct : String}
    {amount balAfter : JsNum} {type : TxType} {desc reference : String}
    {recip : Option String} {curr : String} {tt : Option String}
    {rd : Option RecipientDetails} {now : Nat} {tx : Transaction}
    (h : createTransactionSvc b uid acct amount type desc balAfter reference
      recip curr tt rd now = .ok (tx, b2)) : b2.users = b.users := by
  unfold createTransactionSvc at h
  split at h
  · cases h
  · injection h with h
    injection h with h1 h2
    rw [← h2]

/-- inversion of a successful createTransaction call: one transaction is
prepended -/
theorem createTransactionSvc_ok_transactions {b b2 : Bank} {uid acct : String}
    {amount balAfter : JsNum} {type : TxType} {desc reference : String}
    {recip : Option String} {curr : String} {tt : Option String}
    {rd : Option RecipientDetails} {now : Nat} {tx : Transaction}
    (h : createTransactionSvc b uid acct amount type desc balAfter reference
      recip curr tt rd now = .ok (tx, b2)) :
    b2.transactions = tx :: b.transactions := by
  unfold createTransactionSvc at h
  split at h
  · cases h
  · injection h with h
    injection h with h1 h2
    rw [← h2, ← h1]

/-- inversion of a successful createTransaction call: the reference was
fresh and is the new transaction's reference -/
theorem createTransactionSvc_ok_reference {b b2 : Bank} {uid acct : String}
    {amount balAfter : JsNum} {type : TxType} {desc reference : String}
    {recip : Option String} {curr : String} {tt : Option String}
    {rd : Option RecipientDetails} {now : Nat} {tx : Transaction}
    (h : createTransactionSvc b uid acct amount type desc balAfter reference
      recip curr tt rd now = .ok (tx, b2)) :
    refExists b reference = false ∧ tx.reference = reference := by
  unfold createTransactionSvc at h
  split at h
  · cases h
  · injection h with h
    injection h with h1 h2
    rename_i href
    exact ⟨by simpa using href, by rw [← h1]⟩

/-- one bill payment request, whatever its outcome, leaves every stored
balance not below zero -/
theorem billPay_balances (b : Bank) (uid : String) (req : BillPayReq)
    (now : Nat) (h : balancesNonneg b = true) :
    balancesNonneg (billPay b uid req now).2 = true := by
  unfold billPay
  split
  rotate_left
  · exact h
  rename_i billerId rawAmount otp heqa heqb heqc
  by_cases hvalid : amountInvalid rawAmount = true
  · rw [if_pos hvalid]
    exact h
  rw [if_neg hvalid]
  split
  · exact h
  rename_i entry hentry
  by_cases hotp : (entry.otp != otp) = true ∨ entry.expires < now
  · rw [if_pos hotp]
    exact h
  rw [if_neg hotp]
  simp only []
  split
  · exact balancesNonneg_of_users h rfl
  rename_i user hfind
  split
  · exact balancesNonneg_of_users h rfl
  rename_i primary rest haccounts
  by_cases hfunds : JsNum.lt primary.balance rawAmount = true
  · rw [if_pos hfunds]
    exact balancesNonneg_of_users h rfl
  rw [if_neg hfunds]
  split
  · exact balancesNonneg_of_users h rfl
  rename_i biller hbiller
  split
  · exact balancesNonneg_of_users h rfl
  rename_i tx b2 hsvc
  refine balancesNonneg_of_users ?_ (upsertSummary_users _ _ _ _)
  apply balancesNonneg_saveUser
  · refine balancesNonneg_of_users h ?_
    exact (createTransactionSvc_ok_users hsvc).trans rfl
  · have hb1 : balancesNonneg
        { b with otpStore := eraseFirst (fun e => e.userId == uid) b.otpStore }
          = true := balancesNonneg_of_users h rfl
    have huserOK := (userBalancesNonneg_iff user).mp
      (userBalancesNonneg_of_find hb1 hfind)
    rw [userBalancesNonneg_iff]
    intro a ha
    rcases List.mem_cons.mp ha with rfl | hmem
    · exact JsNum.sub_not_lt_zero _ _ (by simpa using hfunds) (by simpa using hvalid)
    · apply huserOK
      rw [haccounts]
      exact List.mem_cons_of_mem _ hmem

/-!
Concrete fixtures used by the witness and counterexample theorems.
-/

/-- an account with one thousand dollars -/
def cAcct : Account :=
  { accountNumber := "A1", accountName := "Main", balance := .fin 1000,
    currency := "USD" }

/-- a recipient account inside the bank -/
def cRecipAcct : Account :=
  { accountNumber := "A2", accountName := "R", balance := .fin 5,
    currency := "USD" }

/-- a sender with a pending transfer OTP challenge -/
def cUser : BUser :=
  { id := "u1", email := "u1@x", accounts := [cAcct],
    transferOtp := some (hashOtp "123456"), transferOtpExpires := some 1000 }

/-- the recipient user -/
def cRecip : BUser :=
  { id := "u2", email := "u2@x", accounts := [cRecipAcct],
    transferOtp := none, transferOtpExpires := none }

/-- an account summary in sync with the sender's balance -/
def cSummary : AccountSummary :=
  { userId := "u1", accountNumber := "A1", currentBalance := .fin 1000,
    availableBalance := .fin 1000, totalDeposits := .fin 0,
    totalWithdrawals := .fin 0, netChange := .fin 0,
    lastTransactionDate := 0, currency := "USD" }

/-- the store before the scenario transfers -/
def cBank : Bank :=
  { users := [cUser, cRecip], transactions := [], receipts := [],
    summaries := [cSummary], deleted := [], otpStore := [], nextId := 0 }

/-- an internal transfer request of three hundred with the right code -/
def cReq : TransferReq :=
  { TransferReq.empty with
    otp := some "123456", toAccount := some "A2",
    amount := some (.fin 300), transferType := some "internal" }

/-- a user about to pay a bill, with a plaintext code in the otpStore -/
def dUser : BUser :=
  { id := "u1", email := "u1@x",
    accounts := [{ accountNumber := "A1", accountName := "Main",
                   balance := .fin 1000, currency := "USD" }],
    transferOtp := none, transferOtpExpires := none }

/-- the store before the scenario bill payment -/
def dBank : Bank :=
  { users := [dUser], transactions := [], receipts := [], summaries := [],
    deleted := [],
    otpStore := [{ userId := "u1", otp := "654321", expires := 1000 }],
    nextId := 0 }

/-- a bill payment request of forty to the first biller -/
def dReq : BillPayReq :=
  { billerId := some "1", amount := some (.fin 40), reference := none,
    billerName := none, otp := some "654321" }

/-- the store after the scenario bill payment went through -/
def dBank1 : Bank := (billPay dBank "u1" dReq 500).2

/-!
Reference uniqueness machinery: the unique index admits an insert only
when the reference is absent, so distinctness of the stored references
is preserved by every route.
-/

theorem not_mem_txReferences_of_refExists_false {b : Bank} {r : String}
    (h : refExists b r = false) : r ∉ txReferences b := by
  intro hmem
  rcases List.mem_map.mp hmem with ⟨t, ht, hrt⟩
  rw [refExists, List.any_eq_false] at h
  exact (by simpa using h t ht : ¬ t.reference = r) hrt

theorem txReferences_upsertSummary (b : Bank) (uid acct : String)
    (f : AccountSummary → AccountSummary) :
    txReferences (upsertSummary b uid acct f) = txReferences b := by
  unfold txReferences
  rw [upsertSummary_transactions]

theorem txReferences_upsertSummaryGet (b : Bank) (uid acct : String)
    (f : AccountSummary → AccountSummary) :
    txReferences (upsertSummaryGet b uid acct f).2 = txReferences b := by
  unfold txReferences
  rw [upsertSummaryGet_transactions]

/-- one transfer request preserves distinctness of the stored references -/
theorem executeTransfer_refs (b : Bank) (uid : String) (req : TransferReq)
    (now : Nat) (hnd : (txReferences b).Nodup) :
    (txReferences (executeTransfer b uid req now).2).Nodup := by
  unfold executeTransfer
  split
  · exact hnd
  rename_i otp hreqotp
  split
  · exact hnd
  rename_i user hfind
  split
  all_goals try exact hnd
  rename_i otpHash otpExp heq1 heq2
  by_cases hexp : otpExp < now
  · rw [if_pos hexp]
    exact hnd
  rw [if_neg hexp]
  by_cases hcmp : ¬ bcryptCompare otp otpHash = true
  · rw [if_pos hcmp]
    exact hnd
  rw [if_neg hcmp]
  split
  all_goals try exact hnd
  rename_i toAcct rawAmount heq3 heq4
  by_cases hintl : (req.tt == "international") = true ∧
      (req.accountName.isNone = true ∨ req.bankName.isNone = true ∨
        req.swiftIban.isNone = true)
  · rw [if_pos hintl]
    exact hnd
  rw [if_neg hintl]
  by_cases hvalid : amountInvalid rawAmount = true
  · rw [if_pos hvalid]
    exact hnd
  rw [if_neg hvalid]
  split
  · exact hnd
  rename_i primary rest haccounts
  simp only []
  by_cases hfunds : JsNum.lt primary.balance rawAmount = true
  · rw [if_pos hfunds]
    exact hnd
  rw [if_neg hfunds]
  by_cases hrec : (req.tt == "internal") = true ∧ ¬ accountExists b toAcct = true
  · rw [if_pos hrec]
    exact hnd
  rw [if_neg hrec]
  by_cases hdup : refExists b ("TRX-" ++ toString now) = true
  · rw [if_pos hdup]
    exact hnd
  rw [if_neg hdup]
  rw [txReferences_upsertSummary]
  refine List.nodup_cons.mpr ⟨?_, hnd⟩
  exact not_mem_txReferences_of_refExists_false (by simpa using hdup)

/-- one bill payment preserves distinctness of the stored references -/
theorem billPay_refs (b : Bank) (uid : String) (req : BillPayReq)
    (now : Nat) (hnd : (txReferences b).Nodup) :
    (txReferences (billPay b uid req now).2).Nodup := by
  unfold billPay
  split
  rotate_left
  · exact hnd
  rename_i billerId rawAmount otp heqa heqb heqc
  by_cases hvalid : amountInvalid rawAmount = true
  · rw [if_pos hvalid]
    exact hnd
  rw [if_neg hvalid]
  split
  · exact hnd
  rename_i entry hentry
  by_cases hotp : (entry.otp != otp) = true ∨ entry.expires < now
  · rw [if_pos hotp]
    exact hnd
  rw [if_neg hotp]
  simp only []
  split
  · exact hnd
  rename_i user hfind
  split
  · exact hnd
  rename_i primary rest haccounts
  by_cases hfunds : JsNum.lt primary.balance rawAmount = true
  · rw [if_pos hfunds]
    exact hnd
  rw [if_neg hfunds]
  split
  · exact hnd
  rename_i biller hbiller
  split
  · exact hnd
  rename_i tx b2 hsvc
  rw [txReferences_upsertSummary]
  have htx := createTransactionSvc_ok_transactions hsvc
  have href := createTransactionSvc_ok_reference hsvc
  show (b2.transactions.map (fun t => t.reference)).Nodup
  rw [htx, List.map_cons]
  refine List.nodup_cons.mpr ⟨?_, hnd⟩
  rw [href.2]
  exact not_mem_txReferences_of_refExists_false href.1

/-- inserting a transaction with a fresh reference keeps the stored
references distinct -/
theorem nodup_insertTx {X : Bank} {tx : Transaction} {nid : Nat}
    (hfresh : refExists X tx.reference = false)
    (hnd : (txReferences X).Nodup) :
    (txReferences { X with transactions := tx :: X.transactions,
                           nextId := nid }).Nodup := by
  show (tx.reference :: txReferences X).Nodup
  exact List.nodup_cons.mpr ⟨not_mem_txReferences_of_refExists_false hfresh, hnd⟩

/-- one admin credit preserves distinctness of the stored references -/
theorem adminCredit_refs (b : Bank) (req : CreditReq) (now : Nat)
    (hnd : (txReferences b).Nodup) :
    (txReferences (adminCredit b req now).2).Nodup := by
  unfold adminCredit
  split
  rotate_left
  · exact hnd
  rename_i em acct rawAmount heqa heqb heqc
  by_cases hnan : JsNum.isNaN rawAmount = true
  · rw [if_pos hnan]
    exact hnd
  rw [if_neg hnan]
  split
  · exact hnd
  rename_i user hfind
  by_cases hacct : ¬ (user.accounts.any fun a => a.accountNumber == acct) = true
  · rw [if_pos hacct]
    exact hnd
  rw [if_neg hacct]
  simp only []
  split
  · rw [txReferences_upsertSummaryGet]
    exact hnd
  rename_i hdup
  apply nodup_insertTx
  · simpa using hdup
  · rw [txReferences_upsertSummaryGet]
    exact hnd

/-- backdating keeps the stored references distinct (it never touches a
reference) -/
theorem backdateTransaction_refs (b : Bank) (txId newDate : Nat)
    (adminId : String) (now : Nat) (hnd : (txReferences b).Nodup) :
    (txReferences (backdateTransaction b txId newDate adminId now).2).Nodup := by
  unfold backdateTransaction
  split
  · exact hnd
  split
  · exact hnd
  rename_i tx0 htx0
  simp only []
  show ((updateFirst (fun t => t.id == txId)
      (fun t => backdatedTx t newDate adminId now) b.transactions).map
      (fun t => t.reference)).Nodup
  rw [map_updateFirst (fun t => t.id == txId)
    (fun t => backdatedTx t newDate adminId now)
    (fun t => t.reference) b.transactions (fun t => rfl)]
  exact hnd

/-- deleting keeps the stored references distinct (the live set shrinks) -/
theorem deleteTransaction_refs (b : Bank) (txId : Nat) (adminId : String)
    (now : Nat) (hnd : (txReferences b).Nodup) :
    (txReferences (deleteTransaction b txId adminId now).2).Nodup := by
  unfold deleteTransaction
  split
  · exact hnd
  rename_i tx htx
  show ((eraseFirst (fun t => t.id == txId) b.transactions).map
      (fun t => t.reference)).Nodup
  exact List.Nodup.sublist ((eraseFirst_sublist _ _).map _) hnd

/-- every modelled operation keeps the stored references distinct -/
theorem applyOp_refs (b : Bank) (op : Op) (hnd : (txReferences b).Nodup) :
    (txReferences (applyOp b op)).Nodup := by
  cases op with
  | transferOp uid req now => exact executeTransfer_refs b uid req now hnd
  | billPayOp uid req now => exact billPay_refs b uid req now hnd
  | creditOp req now => exact adminCredit_refs b req now hnd
  | backdateOp txId newDate adminId now =>
      exact backdateTransaction_refs b txId newDate adminId now hnd
  | deleteOp txId adminId now =>
      exact deleteTransaction_refs b txId adminId now hnd

/-- a second sender with its own pending challenge, for the
same-millisecond scenario -/
def eUser3 : BUser :=
  { id := "u3", email := "u3@x",
    accounts := [{ accountNumber := "A3", accountName := "S",
                   balance := .fin 400, currency := "USD" }],
    transferOtp := some (hashOtp "222222"), transferOtpExpires := some 1000 }

/-- a store with two senders both holding valid challenges -/
def eBank : Bank :=
  { users := [cUser, cRecip, eUser3], transactions := [], receipts := [],
    summaries := [], deleted := [], otpStore := [], nextId := 0 }

/-- the second sender's transfer request -/
def eReq3 : TransferReq :=
  { TransferReq.empty with
    otp := some "222222", toAccount := some "A2",
    amount := some (.fin 100), transferType := some "internal" }

/-!
The claims.
-/

/-- C1.  Balance non-negativity: for every sequence of committed debit
operations (transfers and bill payments; the repository has no
standalone withdrawal endpoint) starting from a store whose account
balances are all non-negative, no stored balance compares below zero
after any commit; the branch walks in executeTransfer_balances and
billPay_balances show each debit path rejects with Insufficient funds
before any write when the source balance is below the amount. -/
theorem balance_nonnegativity (b : Bank) (ops : List Op)
    (hdebit : ∀ op ∈ ops, op.isDebit = true)
    (h : balancesNonneg b = true) :
    balancesNonneg (ops.foldl applyOp b) = true := by
  induction ops generalizing b with
  | nil => exact h
  | cons op rest ih =>
    rw [List.foldl_cons]
    apply ih (applyOp b op)
    · intro o ho
      exact hdebit o (List.mem_cons_of_mem _ ho)
    · have hop := hdebit op (List.mem_cons_self _ _)
      cases op with
      | transferOp uid req now => exact executeTransfer_balances _ _ _ _ h
      | billPayOp uid req now => exact billPay_balances _ _ _ _ h
      | creditOp req now => exact absurd hop (by simp [Op.isDebit])
      | backdateOp txId newDate adminId now =>
          exact absurd hop (by simp [Op.isDebit])
      | deleteOp txId adminId now => exact absurd hop (by simp [Op.isDebit])

/-- witness for C1: a transfer followed by a bill payment attempt on the
scenario store keeps every balance non-negative -/
theorem balance_nonnegativity_witness :
    (∀ op ∈ [Op.transferOp "u1" cReq 500, Op.billPayOp "u1" dReq 600],
      op.isDebit = true) ∧
    balancesNonneg cBank = true ∧
    balancesNonneg
      (List.foldl applyOp cBank
        [Op.transferOp "u1" cReq 500, Op.billPayOp "u1" dReq 600]) = true :=
  ⟨by decide, by decide,
    balance_nonnegativity cBank
      [Op.transferOp "u1" cReq 500, Op.billPayOp "u1" dReq 600]
      (by decide) (by decide)⟩

/-- C5.  Reference uniqueness: in every store reachable by the modelled
operations from a store with pairwise-distinct transaction references,
the references stay pairwise distinct — the unique index on
BankTransaction.reference rejects the insert of a duplicate (the route
then fails without storing anything), which is what happens when two
requests run in the same millisecond and build the same
TRX-timestamp reference. -/
theorem reference_uniqueness (b : Bank) (ops : List Op)
    (hnd : (txReferences b).Nodup) :
    (txReferences (ops.foldl applyOp b)).Nodup := by
  induction ops generalizing b with
  | nil => exact hnd
  | cons op rest ih =>
    rw [List.foldl_cons]
    exact ih (applyOp b op) (applyOp_refs b op hnd)

/-- witness for C5: two transfers in the same millisecond; the second
one is rejected by the unique index (duplicateReference) and the store
keeps distinct references -/
theorem reference_uniqueness_witness :
    (txReferences eBank).Nodup ∧
    (executeTransfer (applyOp eBank (Op.transferOp "u1" cReq 500))
      "u3" eReq3 500).1 = .error .duplicateReference ∧
    (txReferences
      (List.foldl applyOp eBank
        [Op.transferOp "u1" cReq 500, Op.transferOp "u3" eReq3 500])).Nodup :=
  ⟨by decide, by rfl,
    reference_uniqueness eBank
      [Op.transferOp "u1" cReq 500, Op.transferOp "u3" eReq3 500] (by decide)⟩

/-!
Lookup lemmas for the postcondition claims.
-/

theorem findUser_upsertSummary (b : Bank) (uid uid2 acct : String)
    (f : AccountSummary → AccountSummary) :
    findUser (upsertSummary b uid2 acct f) uid = findUser b uid := by
  unfold findUser
  rw [upsertSummary_users]

/-- saving a document with the id of the user the lookup found makes the
lookup return the saved document -/
theorem findUser_saveUser (b : Bank) (uid : String) (u v : BUser)
    (hu : findUser b uid = some u) (hv : v.id = u.id) :
    findUser (saveUser b v) uid = some v := by
  have hu2 : b.users.find? (fun w => w.id == uid) = some u := hu
  have hid2 : u.id = uid := by simpa using List.find?_some hu2
  have hpv : ((fun w : BUser => w.id == v.id) = fun w : BUser => w.id == uid) := by
    rw [hv, hid2]
  show (updateFirst (fun w => w.id == v.id) (fun _ => v) b.users).find?
      (fun w => w.id == uid) = some v
  rw [hpv]
  exact find?_updateFirst (fun w : BUser => w.id == uid) (fun _ => v)
    b.users u hu2 (by simp [hv, hid2])

theorem find?_append_none {α : Type} {p : α → Bool} {l₁ : List α}
    (l₂ : List α) (h : l₁.find? p = none) :
    (l₁ ++ l₂).find? p = l₂.find? p := by
  induction l₁ with
  | nil => rfl
  | cons a as ih =>
    cases hpa : p a with
    | false =>
      rw [List.find?_cons_of_neg _ (by simp [hpa])] at h
      rw [List.cons_append, List.find?_cons_of_neg _ (by simp [hpa])]
      exact ih h
    | true =>
      rw [List.find?_cons_of_pos _ hpa] at h
      cases h

/-- the first matching summary row after an upsert is the image under the
update of the row found before, or of a fresh zeroed row -/
theorem findSummary_upsert (b : Bank) (uid acct : String)
    (f : AccountSummary → AccountSummary)
    (hf : ∀ s, (f s).userId = s.userId ∧ (f s).accountNumber = s.accountNumber) :
    findSummary (upsertSummary b uid acct f) uid acct =
      some (f ((findSummary b uid acct).getD (freshSummary uid acct))) := by
  unfold upsertSummary upsertSummaryGet
  cases hfind : b.summaries.find?
      (fun s => s.userId == uid && s.accountNumber == acct) with
  | some s =>
    simp only [hfind]
    have hp : ((f s).userId == uid && (f s).accountNumber == acct) = true := by
      have hs := List.find?_some hfind
      rcases hf s with ⟨h1, h2⟩
      simp only [h1, h2]
      simpa using hs
    have hres := find?_updateFirst
      (fun t : AccountSummary => t.userId == uid && t.accountNumber == acct) f
      b.summaries s hfind hp
    show (updateFirst (fun t : AccountSummary =>
        t.userId == uid && t.accountNumber == acct) f b.summaries).find?
        (fun t => t.userId == uid && t.accountNumber == acct)
        = some (f ((findSummary b uid acct).getD (freshSummary uid acct)))
    rw [hres]
    have hx : findSummary b uid acct = some s := hfind
    rw [hx]
    rfl
  | none =>
    simp only [hfind]
    have hp : ((f (freshSummary uid acct)).userId == uid &&
        (f (freshSummary uid acct)).accountNumber == acct) = true := by
      rcases hf (freshSummary uid acct) with ⟨h1, h2⟩
      simp only [Bool.and_eq_true, beq_iff_eq]
      exact ⟨h1.trans rfl, h2.trans rfl⟩
    show (b.summaries ++ [f (freshSummary uid acct)]).find?
        (fun t => t.userId == uid && t.accountNumber == acct)
        = some (f ((findSummary b uid acct).getD (freshSummary uid acct)))
    rw [find?_append_none _ hfind]
    rw [@List.find?_cons_of_pos _
      (fun t : AccountSummary => t.userId == uid && t.accountNumber == acct)
      _ [] hp]
    have hx : findSummary b uid acct = none := hfind
    rw [hx]
    rfl

theorem upsertSummary_receipts (b : Bank) (uid acct : String)
    (f : AccountSummary → AccountSummary) :
    (upsertSummary b uid acct f).receipts = b.receipts :=
  upsertSummaryGet_receipts b uid acct f

/-- the transfer request of scenario B: more than the balance -/
def fReq : TransferReq := { cReq with amount := some (.fin 1500) }

/-- C2.  Insufficient-funds atomicity: a transfer request that passes the
OTP and input validation but asks for more than the source balance is
rejected with the insufficient-funds error and the whole store is
returned unchanged — no transaction, receipt or summary row is written
and no balance moves. -/
theorem insufficient_funds_atomicity
    (b : Bank) (uid : String) (req : TransferReq) (now : Nat)
    (user : BUser) (code otpHash : String) (otpExp : Nat)
    (toAcct : String) (amt : JsNum) (primary : Account) (rest : List Account)
    (hotp : req.otp = some code)
    (hfind : findUser b uid = some user)
    (hstored : user.transferOtp = some otpHash)
    (hexp : user.transferOtpExpires = some otpExp)
    (hnotexp : ¬ otpExp < now)
    (hmatch : bcryptCompare code otpHash = true)
    (hto : req.toAccount = some toAcct)
    (hamt : req.amount = some amt)
    (hintl : ¬ ((req.tt == "international") = true ∧
      (req.accountName.isNone = true ∨ req.bankName.isNone = true ∨
        req.swiftIban.isNone = true)))
    (hvalid : amountInvalid amt = false)
    (hacc : user.accounts = primary :: rest)
    (hover : JsNum.lt primary.balance amt = true) :
    executeTransfer b uid req now = (.error .insufficientFunds, b) := by
  have hcmp : ¬ ¬ bcryptCompare code otpHash = true := by simp [hmatch]
  have hv2 : ¬ amountInvalid amt = true := by simp [hvalid]
  simp only [executeTransfer, hotp, hfind, hstored, hexp, hto, hamt, hacc,
    if_neg hnotexp, if_neg hcmp, if_neg hintl, if_neg hv2, if_pos hover]

/-- witness for C2: balance one thousand, request fifteen hundred, valid
code — rejected and the store identical -/
theorem insufficient_funds_atomicity_witness :
    JsNum.lt cAcct.balance (.fin 1500) = true ∧
    executeTransfer cBank "u1" fReq 500 = (.error .insufficientFunds, cBank) :=
  ⟨by decide,
    insufficient_funds_atomicity cBank "u1" fReq 500 cUser "123456"
      (hashOtp "123456") 1000 "A2" (.fin 1500) cAcct [] rfl rfl rfl rfl
      (by decide) (by decide) rfl rfl (by decide) (by decide) rfl (by decide)⟩

/-- mapped form of findUser_saveUser, for reading a field of the saved
user document -/
theorem findUser_saveUser_map {β : Type} (b : Bank) (uid : String)
    {u : BUser} (v : BUser) (g : BUser → β)
    (hu : findUser b uid = some u) (hv : v.id = u.id) :
    (findUser (saveUser b v) uid).map g = some (g v) := by
  rw [findUser_saveUser b uid u v hu hv]
  rfl

/-- the summary balance after the debit upsert is the old summary
balance (zero when the row was absent) minus the amount -/
theorem summaryBalance_upsert_debit (b : Bank) (uid acct : String)
    (amt : JsNum) (now : Nat) (curr : String) :
    summaryBalance (upsertSummary b uid acct (debitSummaryUpdate amt now curr))
        uid acct
      = (summaryBalance b uid acct).sub amt := by
  rw [summaryBalance, findSummary_upsert b uid acct
    (debitSummaryUpdate amt now curr) (fun s => ⟨rfl, rfl⟩)]
  cases hs : findSummary b uid acct <;>
    simp [summaryBalance, hs, debitSummaryUpdate, freshSummary]

/-- C3.  Successful-transfer postcondition: an internal transfer of a
from balance b with a valid un-expired code and an existing recipient
returns success with newBalance b - a, prepends exactly one completed
Transaction with amount -a and balanceAfter b - a, prepends exactly one
matching Receipt keyed by the transaction id, stores balance b - a on
the source account and decrements the summary currentBalance by a. -/
theorem successful_transfer_postcondition
    (b : Bank) (uid : String) (req : TransferReq) (now : Nat)
    (user : BUser) (code : String) (otpExp : Nat)
    (toAcct : String) (primary : Account) (rest : List Account)
    (bq aq : ℚ)
    (hotp : req.otp = some code)
    (hfind : findUser b uid = some user)
    (hstored : user.transferOtp = some (hashOtp code))
    (hexp : user.transferOtpExpires = some otpExp)
    (hnotexp : ¬ otpExp < now)
    (hto : req.toAccount = some toAcct)
    (hamt : req.amount = some (.fin aq))
    (hint : req.transferType = some "internal")
    (hrecip : accountExists b toAcct = true)
    (hacc : user.accounts = primary :: rest)
    (hbal : primary.balance = .fin bq)
    (hle : aq ≤ bq) (hpos : 0 < aq)
    (hfresh : refExists b ("TRX-" ++ toString now) = false) :
    (executeTransfer b uid req now).1 =
      .ok { newBalance := .fin (bq - aq), currency := orUSD primary.currency,
            transferType := "internal",
            reference := "TRX-" ++ toString now } ∧
    (executeTransfer b uid req now).2.transactions.tail = b.transactions ∧
    ((executeTransfer b uid req now).2.transactions.head?.map
      (fun t => t.amount)) = some (.fin (-aq)) ∧
    ((executeTransfer b uid req now).2.transactions.head?.map
      (fun t => t.balanceAfter)) = some (.fin (bq - aq)) ∧
    ((executeTransfer b uid req now).2.transactions.head?.map
      (fun t => t.status)) = some .completed ∧
    ((executeTransfer b uid req now).2.transactions.head?.map
      (fun t => t.reference)) = some ("TRX-" ++ toString now) ∧
    (executeTransfer b uid req now).2.receipts.tail = b.receipts ∧
    ((executeTransfer b uid req now).2.receipts.head?.map
      (fun r => r.transactionId)) =
      ((executeTransfer b uid req now).2.transactions.head?.map
        (fun t => toString t.id)) ∧
    ((executeTransfer b uid req now).2.receipts.head?.map
      (fun r => r.amount)) = some (.fin (-aq)) ∧
    ((executeTransfer b uid req now).2.receipts.head?.map
      (fun r => r.balanceAfter)) = some (.fin (bq - aq)) ∧
    ((executeTransfer b uid req now).2.receipts.head?.map
      (fun r => r.currency)) = some (orUSD primary.currency) ∧
    ((executeTransfer b uid req now).2.receipts.head?.map
      (fun r => r.status)) = some "completed" ∧
    ((findUser (executeTransfer b uid req now).2 uid).map
      (fun u => u.accounts)) =
      some ({ primary with balance := .fin (bq - aq) } :: rest) ∧
    summaryBalance (executeTransfer b uid req now).2 uid primary.accountNumber
      = (summaryBalance b uid primary.accountNumber).sub (.fin aq) := by
  have htt : req.tt = "internal" := by
    rw [TransferReq.tt, hint]
    rfl
  have hcmp : ¬ ¬ bcryptCompare code (hashOtp code) = true := by
    simp [bcryptCompare]
  have hv2 : ¬ amountInvalid (JsNum.fin aq) = true := by
    simp only [amountInvalid, JsNum.isNaN, JsNum.le, Bool.false_or,
      decide_eq_true_eq]
    exact not_le.mpr hpos
  have hintl : ¬ ((req.tt == "international") = true ∧
      (req.accountName.isNone = true ∨ req.bankName.isNone = true ∨
        req.swiftIban.isNone = true)) := by
    simp [htt]
  have hnof : ¬ JsNum.lt (.fin bq) (.fin aq) = true := by
    simp only [JsNum.lt, decide_eq_true_eq]
    exact not_lt.mpr hle
  have hrec2 : ¬ ((req.tt == "internal") = true ∧
      ¬ accountExists b toAcct = true) := by
    simp [htt, hrecip]
  have hdup2 : ¬ refExists b ("TRX-" ++ toString now) = true := by
    simp [hfresh]
  have hsb : JsNum.sub (.fin bq) (.fin aq) = JsNum.fin (bq - aq) := by
    simp only [JsNum.sub, JsNum.neg, JsNum.add, qadd_eq_add]
    rw [sub_eq_add_neg]
  simp only [executeTransfer, hotp, hfind, hstored, hexp, hto, hamt, hacc,
    hbal, if_neg hnotexp, if_neg hcmp, if_neg hintl, if_neg hv2,
    if_neg hnof, if_neg hrec2, if_neg hdup2, hsb]
  refine ⟨?_, ?_, ?_, ?_, ?_, ?_, ?_, ?_, ?_, ?_, ?_, ?_, ?_, ?_⟩
  · rw [htt]
  · rw [upsertSummary_transactions]
    rfl
  · rw [upsertSummary_transactions]
    rfl
  · rw [upsertSummary_transactions]
    rfl
  · rw [upsertSummary_transactions]
    rfl
  · rw [upsertSummary_transactions]
    rfl
  · rw [upsertSummary_receipts]
    rfl
  · rw [upsertSummary_receipts, upsertSummary_transactions]
    rfl
  · rw [upsertSummary_receipts]
    rfl
  · rw [upsertSummary_receipts]
    rfl
  · rw [upsertSummary_receipts]
    rfl
  · rw [upsertSummary_receipts]
    rfl
  · rw [findUser_upsertSummary]
    apply findUser_saveUser_map
    · exact hfind
    · rfl
  · rw [summaryBalance_upsert_debit]
    rfl

/-- witness for C3: scenario A — balance one thousand, internal transfer
of three hundred with a valid code gives seven hundred in the response
and the summary decrement -/
theorem successful_transfer_postcondition_witness :
    (300 : ℚ) ≤ 1000 ∧
    (executeTransfer cBank "u1" cReq 500).1 =
      .ok { newBalance := .fin (1000 - 300), currency := orUSD cAcct.currency,
            transferType := "internal",
            reference := "TRX-" ++ toString 500 } ∧
    summaryBalance (executeTransfer cBank "u1" cReq 500).2 "u1"
        cAcct.accountNumber
      = (summaryBalance cBank "u1" cAcct.accountNumber).sub (.fin 300) := by
  have h := successful_transfer_postcondition cBank "u1" cReq 500 cUser
    "123456" 1000 "A2" cAcct [] 1000 300 rfl rfl rfl rfl (by decide) rfl
    rfl rfl (by decide) rfl rfl (by norm_num) (by norm_num) (by decide)
  exact ⟨by norm_num, h.1, h.2.2.2.2.2.2.2.2.2.2.2.2.2⟩

/-- inversion of a successful transfer: the stored challenge of the
sender is gone in the resulting store -/
theorem executeTransfer_ok_otpCleared (b b2 : Bank) (uid : String)
    (req : TransferReq) (now : Nat) (resp : TransferOk)
    (h : executeTransfer b uid req now = (.ok resp, b2)) :
    (findUser b2 uid).map (fun u => u.transferOtp) = some none := by
  unfold executeTransfer at h
  try simp only [] at h
  repeat' split at h
  all_goals injection h with h1 h2
  all_goals try injection h1
  subst h2
  rw [findUser_upsertSummary]
  apply findUser_saveUser_map
  · assumption
  · rfl

/-- C4.  OTP single-use: a successful transfer consumes the stored
challenge, so a second verification attempt with any submitted code
(the same code included) fails with no pending transfer and changes
nothing. -/
theorem otp_single_use (b b2 : Bank) (uid : String) (req req2 : TransferReq)
    (now now2 : Nat) (resp : TransferOk) (c2 : String)
    (h : executeTransfer b uid req now = (.ok resp, b2))
    (hotp2 : req2.otp = some c2) :
    executeTransfer b2 uid req2 now2 = (.error .noPendingTransfer, b2) := by
  have hm := executeTransfer_ok_otpCleared b b2 uid req now resp h
  cases hfind2 : findUser b2 uid with
  | none => simp [executeTransfer, hotp2, hfind2]
  | some u2 =>
    have hmu : u2.transferOtp = none := by
      rw [hfind2] at hm
      simpa using hm
    simp only [executeTransfer, hotp2, hfind2, hmu]

/-- witness for C4: the scenario transfer succeeds and replaying the same
code is rejected with no pending transfer -/
theorem otp_single_use_witness :
    (executeTransfer cBank "u1" cReq 500).1.isOk = true ∧
    executeTransfer (executeTransfer cBank "u1" cReq 500).2 "u1" cReq 600
      = (.error .noPendingTransfer, (executeTransfer cBank "u1" cReq 500).2) := by
  refine ⟨by decide, ?_⟩
  exact otp_single_use cBank (executeTransfer cBank "u1" cReq 500).2 "u1"
    cReq cReq 500 600 ((executeTransfer cBank "u1" cReq 500).1.toOption.getD
      { newBalance := .fin 0, currency := "", transferType := "",
        reference := "" }) "123456"
    (by rfl) rfl

/-- the scenario request with a non-finite amount -/
def gReqInf : TransferReq := { cReq with amount := some .posInf }

/-- C7.  Outbound-amount validation, evaluated at the failing input: the
isNaN-or-nonpositive check accepts positive infinity, so a request whose
amount parses to +Infinity passes the amount validation and reaches the
balance check (where it is rejected as insufficient funds, the balance
being finite); NaN, -Infinity, zero and negative amounts are rejected by
the validation as the claim states. -/
theorem infinity_passes_amount_validation :
    amountInvalid JsNum.posInf = false ∧
    executeTransfer cBank "u1" gReqInf 500 = (.error .insufficientFunds, cBank) ∧
    amountInvalid JsNum.nan = true ∧
    amountInvalid JsNum.negInf = true ∧
    amountInvalid (.fin 0) = true ∧
    amountInvalid (.fin (-5)) = true := by
  refine ⟨by decide, by rfl, by decide, by decide, by decide, by decide⟩

/-- saving a user document leaves the transaction store alone, so
reference existence is unchanged -/
theorem refExists_saveUser (b : Bank) (u : BUser) (r : String) :
    refExists (saveUser b u) r = refExists b r := rfl

/-- the summary upsert leaves the transaction store alone, so reference
existence is unchanged -/
theorem refExists_upsertSummaryGet (b : Bank) (uid acct : String)
    (f : AccountSummary → AccountSummary) (r : String) :
    refExists (upsertSummaryGet b uid acct f).2 r = refExists b r := by
  unfold refExists
  rw [upsertSummaryGet_transactions]

/-- reading a field of the saved user document out of any store whose
users are those of the save -/
theorem findUser_map_of_users {β : Type} (b final : Bank) (uid : String)
    {u : BUser} (v : BUser) (g : BUser → β) (y : β)
    (hf : final.users = (saveUser b v).users)
    (hu : findUser b uid = some u) (hv : v.id = u.id) (hy : g v = y) :
    (findUser final uid).map g = some y := by
  unfold findUser
  rw [hf]
  have h2 := findUser_saveUser b uid u v hu hv
  unfold findUser at h2
  rw [h2]
  show some (g v) = some y
  rw [hy]

/-- C10.  The admin credit route validates the amount only against NaN:
a negative finite amount x passes, the operation succeeds, the target
account balance moves from bal to bal + x = bal - |x| with no funds or
sign check, the prepended transaction records type deposit with amount
x, and when bal + x < 0 the stored balance compares below zero. -/
theorem admin_credit_negative_amount
    (b : Bank) (req : CreditReq) (now : Nat) (em acct : String) (x : ℚ)
    (user : BUser) (acc0 : Account) (bal : ℚ)
    (hem : req.userEmail = some em)
    (hacct : req.accountNumber = some acct)
    (hamt : req.amount = some (.fin x))
    (hneg : x < 0)
    (hfind : findUserByEmail b em = some user)
    (hfindid : findUser b user.id = some user)
    (hacc : user.accounts.find? (fun a => a.accountNumber == acct) = some acc0)
    (hbal : acc0.balance = .fin bal)
    (hfresh : refExists b ("ADMIN-CREDIT-" ++ toString now) = false) :
    (adminCredit b req now).1.toOption.isSome = true ∧
    ((findUser (adminCredit b req now).2 user.id).map
      (fun u => (u.accounts.find? (fun a => a.accountNumber == acct)).map
        (fun a => a.balance))) = some (some (.fin (bal + x))) ∧
    bal + x = bal - |x| ∧
    ((adminCredit b req now).2.transactions.head?.map (fun t => t.type))
      = some .deposit ∧
    ((adminCredit b req now).2.transactions.head?.map (fun t => t.amount))
      = some (.fin x) ∧
    (adminCredit b req now).2.transactions.tail = b.transactions ∧
    (bal + x < 0 → JsNum.lt (.fin (bal + x)) (.fin 0) = true) := by
  have hnanneg : ¬ JsNum.isNaN (.fin x) = true := by
    simp [JsNum.isNaN]
  have hpacc := List.find?_some hacc
  have hanyneg : ¬ ¬ (user.accounts.any fun a => a.accountNumber == acct) = true := by
    simp only [not_not, List.any_eq_true]
    exact ⟨acc0, List.mem_of_find?_eq_some hacc, hpacc⟩
  have hdup2 : ¬ refExists b ("ADMIN-CREDIT-" ++ toString now) = true := by
    simp [hfresh]
  simp only [adminCredit, hem, hacct, hamt, hfind, if_neg hnanneg,
    if_neg hanyneg, refExists_upsertSummaryGet, refExists_saveUser,
    if_neg hdup2]
  refine ⟨rfl, ?_, ?_, rfl, rfl, ?_, ?_⟩
  · apply findUser_map_of_users
    · exact upsertSummaryGet_users _ _ _ _
    · exact hfindid
    · rfl
    · have hfd := find?_updateFirst (fun a => a.accountNumber == acct)
        (fun a => { a with balance := a.balance.add (.fin x) })
        user.accounts acc0 hacc hpacc
      show ((updateFirst (fun a => a.accountNumber == acct)
          (fun a => { a with balance := a.balance.add (.fin x) })
          user.accounts).find? (fun a => a.accountNumber == acct)).map
          (fun a => a.balance) = some (.fin (bal + x))
      rw [hfd]
      show some ((acc0.balance).add (.fin x)) = some (.fin (bal + x))
      rw [hbal]
      simp only [JsNum.add, qadd_eq_add]
  · rw [abs_of_neg hneg]
    ring
  · rw [List.tail_cons, upsertSummaryGet_transactions]
    rfl
  · intro h7
    simp only [JsNum.lt, decide_eq_true_eq]
    exact h7

/-- a credit request for more than the account holds, negatively -/
def cCreditReq : CreditReq :=
  { userEmail := some "u1@x", accountNumber := some "A1",
    amount := some (.fin (-1200)), description := none }

/-- witness for C10: crediting minus twelve hundred to the account with
balance one thousand succeeds, records a deposit, and leaves the stored
balance at minus two hundred -/
theorem admin_credit_negative_amount_witness :
    (-1200 : ℚ) < 0 ∧
    (adminCredit cBank cCreditReq 700).1.toOption.isSome = true ∧
    ((findUser (adminCredit cBank cCreditReq 700).2 "u1").map
      (fun u => (u.accounts.find? (fun a => a.accountNumber == "A1")).map
        (fun a => a.balance))) = some (some (.fin (1000 + -1200))) ∧
    ((adminCredit cBank cCreditReq 700).2.transactions.head?.map
      (fun t => t.type)) = some .deposit ∧
    JsNum.lt (.fin (1000 + -1200)) (.fin 0) = true := by
  have h := admin_credit_negative_amount cBank cCreditReq 700 "u1@x" "A1"
    (-1200) cUser cAcct 1000 rfl rfl rfl (by norm_num) rfl rfl rfl rfl
    (by decide)
  exact ⟨by norm_num, h.1, h.2.1, h.2.2.2.1, h.2.2.2.2.2.2 (by norm_num)⟩

/-- the backdated document keeps the transaction id -/
theorem backdatedTx_id (t : Transaction) (nd : Nat) (aid : String) (n : Nat) :
    (backdatedTx t nd aid n).id = t.id := rfl

/-- the backdated document's createdAt is the new date -/
theorem backdatedTx_createdAt (t : Transaction) (nd : Nat) (aid : String) (n : Nat) :
    (backdatedTx t nd aid n).createdAt = nd := rfl

/-- the backdated document's originalDate is the previous originalDate
when one was set, else the previous createdAt -/
theorem backdatedTx_originalDate (t : Transaction) (nd : Nat) (aid : String) (n : Nat) :
    (backdatedTx t nd aid n).originalDate =
      some (t.originalDate.getD t.createdAt) := rfl

/-- when the new date differs from the stored createdAt, one history
entry naming the admin is appended (with from and to both read off the
already-reassigned date) -/
theorem backdatedTx_history_ne (t : Transaction) (nd : Nat) (aid : String) (n : Nat)
    (h : nd ≠ t.createdAt) :
    (backdatedTx t nd aid n).modificationHistory =
      t.modificationHistory ++
        [{ date := n, changedBy := aid, changesFrom := nd, changesTo := nd }] := by
  simp only [backdatedTx]
  rw [if_pos h]

/-- C8 (amended).  Backdate audit trail: backdating a transaction dated
d0 to d1 succeeds, preserves originalDate = d0 and appends one history
entry naming the acting admin and the call time; a second backdate to d2
still reports originalDate d0 (not d1) and appends a second entry.  Each
entry's from and to fields both carry the NEW date (the hook reads the
change off the already-reassigned document), so the old date is not part
of the entry. -/
theorem backdate_audit_trail
    (b : Bank) (txId : Nat) (tx : Transaction) (d0 d1 : Nat) (admin1 : String)
    (now1 d2 : Nat) (admin2 : String) (now2 : Nat)
    (hfindtx : findTx b txId = some tx)
    (horig : tx.originalDate = none)
    (hd0 : tx.createdAt = d0)
    (hnf1 : ¬ now1 < d1) (hne1 : d1 ≠ d0)
    (hnf2 : ¬ now2 < d2) (hne2 : d2 ≠ d1) :
    (backdateTransaction b txId d1 admin1 now1).1 = .ok () ∧
    ((findTx (backdateTransaction b txId d1 admin1 now1).2 txId).map
      (fun t => t.originalDate)) = some (some d0) ∧
    ((findTx (backdateTransaction b txId d1 admin1 now1).2 txId).map
      (fun t => t.createdAt)) = some d1 ∧
    ((findTx (backdateTransaction b txId d1 admin1 now1).2 txId).map
      (fun t => t.modificationHistory)) =
      some (tx.modificationHistory ++
        [{ date := now1, changedBy := admin1, changesFrom := d1, changesTo := d1 }]) ∧
    (backdateTransaction (backdateTransaction b txId d1 admin1 now1).2
      txId d2 admin2 now2).1 = .ok () ∧
    ((findTx (backdateTransaction (backdateTransaction b txId d1 admin1 now1).2
        txId d2 admin2 now2).2 txId).map (fun t => t.originalDate)) =
      some (some d0) ∧
    ((findTx (backdateTransaction (backdateTransaction b txId d1 admin1 now1).2
        txId d2 admin2 now2).2 txId).map (fun t => t.createdAt)) = some d2 ∧
    ((findTx (backdateTransaction (backdateTransaction b txId d1 admin1 now1).2
        txId d2 admin2 now2).2 txId).map (fun t => t.modificationHistory)) =
      some (tx.modificationHistory ++
        [{ date := now1, changedBy := admin1, changesFrom := d1, changesTo := d1 },
         { date := now2, changedBy := admin2, changesFrom := d2, changesTo := d2 }]) := by
  have hft : b.transactions.find? (fun t => t.id == txId) = some tx := hfindtx
  have hp0 := List.find?_some hft
  have hfd1 := find?_updateFirst (fun t => t.id == txId)
    (fun t => backdatedTx t d1 admin1 now1) b.transactions tx hft hp0
  have hfd2 := find?_updateFirst (fun t => t.id == txId)
    (fun t => backdatedTx t d2 admin2 now2)
    (updateFirst (fun t => t.id == txId)
      (fun t => backdatedTx t d1 admin1 now1) b.transactions)
    (backdatedTx tx d1 admin1 now1) hfd1 hp0
  have hne1' : d1 ≠ tx.createdAt := by
    rw [hd0]
    exact hne1
  have hh1 := backdatedTx_history_ne tx d1 admin1 now1 hne1'
  have ho1 : (backdatedTx tx d1 admin1 now1).originalDate = some d0 := by
    rw [backdatedTx_originalDate, horig, Option.getD_none, hd0]
  have hne2' : d2 ≠ (backdatedTx tx d1 admin1 now1).createdAt := by
    rw [backdatedTx_createdAt]
    exact hne2
  have hh2 := backdatedTx_history_ne (backdatedTx tx d1 admin1 now1)
    d2 admin2 now2 hne2'
  simp only [backdateTransaction, if_neg hnf1, if_neg hnf2, findTx, hft,
    hfd1, hfd2]
  refine ⟨trivial, ?_, ?_, ?_, trivial, ?_, ?_, ?_⟩
  · simp [backdatedTx_originalDate, horig, hd0]
  · simp [backdatedTx_createdAt]
  · simp [hh1]
  · simp [backdatedTx_originalDate, horig, hd0]
  · simp [backdatedTx_createdAt]
  · simp [hh2, hh1]

/-- a committed transaction dated six hundred, about to be backdated -/
def hTx : Transaction :=
  { id := 0, userId := "u1", accountNumber := "A1", amount := .fin 10,
    currency := "USD", type := .deposit, transferType := none,
    recipientDetails := none, description := "seed", balanceAfter := .fin 10,
    recipientAccount := none, reference := "SEED-1", status := .completed,
    createdAt := 600, updatedAt := 600, originalDate := none,
    lastModifiedBy := none, modificationHistory := [] }

/-- a store holding that transaction -/
def hBank : Bank :=
  { users := [cUser], transactions := [hTx], receipts := [], summaries := [],
    deleted := [], otpStore := [], nextId := 1 }

/-- C8 counterexample: backdating the transaction dated six hundred to
five hundred appends a history entry whose from and to BOTH read five
hundred — the pre-save hook reads the change through get on the already
reassigned document — so the six-hundred-to-five-hundred date change is
never recorded; the original claim's "entry recording the date change"
fails. -/
theorem backdate_audit_trail_counterexample :
    hTx.createdAt = 600 ∧
    ((findTx (backdateTransaction hBank 0 500 "adm" 700).2 0).map
      (fun t => t.modificationHistory.map
        (fun m => (m.changesFrom, m.changesTo)))) = some [(500, 500)] := by
  refine ⟨by decide, by decide⟩

/-- witness for C8: backdating from six hundred to five hundred and then
to four hundred keeps originalDate at six hundred both times -/
theorem backdate_audit_trail_witness :
    (500 : Nat) ≠ 600 ∧
    ((findTx (backdateTransaction hBank 0 500 "adm" 700).2 0).map
      (fun t => t.originalDate)) = some (some 600) ∧
    ((findTx (backdateTransaction (backdateTransaction hBank 0 500 "adm" 700).2
        0 400 "adm2" 800).2 0).map (fun t => t.originalDate)) =
      some (some 600) := by
  have h := backdate_audit_trail hBank 0 hTx 600 500 "adm" 700 400 "adm2" 800
    rfl rfl rfl (by decide) (by decide) (by decide) (by decide)
  exact ⟨by decide, h.2.1, h.2.2.2.2.2.1⟩

/-- saving a user document leaves the receipts alone -/
theorem saveUser_receipts (b : Bank) (u : BUser) :
    (saveUser b u).receipts = b.receipts := rfl

/-- saving a user document leaves the transactions alone -/
theorem saveUser_transactions (b : Bank) (u : BUser) :
    (saveUser b u).transactions = b.transactions := rfl

/-- inversion of a successful createTransaction call: one receipt keyed
by the REFERENCE string is prepended -/
theorem createTransactionSvc_ok_receipt {b b2 : Bank} {uid acct : String}
    {amount balAfter : JsNum} {type : TxType} {desc reference : String}
    {recip : Option String} {curr : String} {tt : Option String}
    {rd : Option RecipientDetails} {now : Nat} {tx : Transaction}
    (h : createTransactionSvc b uid acct amount type desc balAfter reference
      recip curr tt rd now = .ok (tx, b2)) :
    b2.receipts =
      { transactionId := reference, reference := reference, userId := uid,
        accountNumber := acct, amount := amount, type := type,
        description := desc, balanceAfter := balAfter,
        recipientDetails := rd, status := "completed", currency := curr,
        transactionDate := now } :: b.receipts := by
  unfold createTransactionSvc at h
  split at h
  · cases h
  · injection h with h
    injection h with h1 h2
    rw [← h2]

/-- inversion of a successful createTransaction call: the new
transaction carries the passed id, amount, balance-after, currency and
reference -/
theorem createTransactionSvc_ok_fields {b b2 : Bank} {uid acct : String}
    {amount balAfter : JsNum} {type : TxType} {desc reference : String}
    {recip : Option String} {curr : String} {tt : Option String}
    {rd : Option RecipientDetails} {now : Nat} {tx : Transaction}
    (h : createTransactionSvc b uid acct amount type desc balAfter reference
      recip curr tt rd now = .ok (tx, b2)) :
    tx.id = b.nextId ∧ tx.amount = amount ∧ tx.balanceAfter = balAfter ∧
    tx.currency = curr ∧ tx.reference = reference := by
  unfold createTransactionSvc at h
  split at h
  · cases h
  · injection h with h
    injection h with h1 h2
    rw [← h1]
    exact ⟨rfl, rfl, rfl, rfl, rfl⟩

/-- C6 counterexample: after the scenario bill payment the single
committed transaction is referenced by TWO live receipts (the service
writes one keyed by the reference, the route writes a second inline
keyed by the object id), both carrying its amount, balance-after and
currency — never exactly one. -/
theorem receipt_one_to_one_counterexample :
    (dBank1.transactions.map (fun t => receiptsFor dBank1 t)) = [2] ∧
    (dBank1.transactions.map (fun t => matchingReceiptsFor dBank1 t)) = [2] := by
  refine ⟨by decide, by decide⟩

/-- C6 (amended).  Receipt creation per route: a successful transfer
prepends exactly one receipt, keyed by the new transaction's object id
and matching its amount, balance-after and currency; a successful bill
payment prepends exactly two receipts, both referencing the new
transaction with matching amount, balance-after and currency. -/
theorem receipt_per_transaction_by_route
    (bt b2t bb b2b : Bank) (uidt uidb : String)
    (reqt : TransferReq) (reqb : BillPayReq) (nt nb : Nat)
    (rt : TransferOk) (rb : BillPayOk)
    (ht : executeTransfer bt uidt reqt nt = (.ok rt, b2t))
    (hb : billPay bb uidb reqb nb = (.ok rb, b2b)) :
    b2t.receipts.tail = bt.receipts ∧
    ((b2t.receipts.head?.map (fun rc => rc.transactionId)) =
      (b2t.transactions.head?.map (fun t => toString t.id))) ∧
    ((b2t.transactions.head?.map (fun t =>
      (b2t.receipts.take 1).all (fun rc => receiptRefersTo rc t &&
        rc.amount == t.amount && rc.balanceAfter == t.balanceAfter &&
        rc.currency == t.currency))) = some true) ∧
    b2b.receipts.tail.tail = bb.receipts ∧
    ((b2b.transactions.head?.map (fun t =>
      (b2b.receipts.take 2).all (fun rc => receiptRefersTo rc t &&
        rc.amount == t.amount && rc.balanceAfter == t.balanceAfter &&
        rc.currency == t.currency))) = some true) := by
  unfold executeTransfer at ht
  try simp only [] at ht
  repeat' split at ht
  all_goals injection ht with h1 h2
  all_goals try injection h1
  subst h2
  unfold billPay at hb
  try simp only [] at hb
  repeat' split at hb
  all_goals injection hb with h3 h4
  all_goals try injection h3
  subst h4
  rename_i tx b2 hsvc hpay
  have hrec := createTransactionSvc_ok_receipt hsvc
  have htxs := createTransactionSvc_ok_transactions hsvc
  obtain ⟨hfid, hfam, hfba, hfcu, hfrf⟩ := createTransactionSvc_ok_fields hsvc
  refine ⟨?_, ?_, ?_, ?_, ?_⟩
  · rw [upsertSummary_receipts, saveUser_receipts]
    rfl
  · rw [upsertSummary_receipts, upsertSummary_transactions,
      saveUser_receipts, saveUser_transactions]
    rfl
  · rw [upsertSummary_receipts, upsertSummary_transactions,
      saveUser_receipts, saveUser_transactions]
    simp [receiptRefersTo]
  · rw [upsertSummary_receipts, saveUser_receipts, hrec]
    rfl
  · rw [upsertSummary_receipts, upsertSummary_transactions,
      saveUser_receipts, saveUser_transactions, hrec, htxs]
    simp [receiptRefersTo, hfid, hfam, hfba, hfcu, hfrf]

/-- witness for C6 (amended): the scenario transfer leaves one prepended
receipt; the scenario bill payment leaves two, both referencing its
transaction with matching fields -/
theorem receipt_per_transaction_by_route_witness :
    (executeTransfer cBank "u1" cReq 500).2.receipts.tail = cBank.receipts ∧
    (billPay dBank "u1" dReq 500).2.receipts.tail.tail = dBank.receipts ∧
    ((billPay dBank "u1" dReq 500).2.transactions.head?.map (fun t =>
      ((billPay dBank "u1" dReq 500).2.receipts.take 2).all (fun rc =>
        receiptRefersTo rc t && rc.amount == t.amount &&
        rc.balanceAfter == t.balanceAfter && rc.currency == t.currency))) =
      some true := by
  have h := receipt_per_transaction_by_route cBank
    (executeTransfer cBank "u1" cReq 500).2 dBank
    (billPay dBank "u1" dReq 500).2 "u1" "u1" cReq dReq 500 500
    ((executeTransfer cBank "u1" cReq 500).1.toOption.getD
      { newBalance := .fin 0, currency := "", transferType := "",
        reference := "" })
    ((billPay dBank "u1" dReq 500).1.toOption.getD
      { newBalance := .fin 0, currency := "", reference := "" })
    (by rfl) (by rfl)
  exact ⟨h.1, h.2.2.2.1, h.2.2.2.2⟩

/-- an element the predicate rejects survives eraseFirst -/
theorem mem_eraseFirst_of_neg {α : Type} {p : α → Bool} {l : List α} {x : α}
    (hx : x ∈ l) (hp : p x = false) : x ∈ eraseFirst p l := by
  induction l with
  | nil => cases hx
  | cons a as ih =>
    by_cases hpa : p a = true
    · rcases List.mem_cons.mp hx with h | h
      · subst h
        rw [hpa] at hp
        cases hp
      · simpa [eraseFirst, hpa] using h
    · rcases List.mem_cons.mp hx with h | h
      · subst h
        simp [eraseFirst, hpa]
      · simp only [eraseFirst, if_neg hpa]
        exact List.mem_cons.mpr (.inr (ih h))

/-- when the keys are distinct, removing the first key match leaves no
key match at all -/
theorem filter_eraseFirst_eq_nil {α β : Type} [DecidableEq β] (f : α → β)
    (y : β) (l : List α) (hnd : (l.map f).Nodup) :
    (eraseFirst (fun a => f a == y) l).filter (fun a => f a == y) = [] := by
  induction l with
  | nil => rfl
  | cons a as ih =>
    rw [List.map_cons, List.nodup_cons] at hnd
    cases hp : (f a == y) with
    | true =>
      have hy : f a = y := by simpa using hp
      simp only [eraseFirst, hp, if_true]
      rw [List.filter_eq_nil_iff]
      intro x hx hpx
      have hxy : f x = y := by simpa using hpx
      exact hnd.1 (by rw [hy, ← hxy]; exact List.mem_map_of_mem f hx)
    | false =>
      simp only [eraseFirst, hp, Bool.false_eq_true, if_false]
      rw [List.filter_cons_of_neg (by simp [hp])]
      exact ih hnd.2

/-- C9 counterexample: deleting the bill payment transaction succeeds
and removes the live transaction, but the receipt the shared service
keyed by the REFERENCE string survives the Receipt.deleteOne keyed by
the object id, so a live receipt with the deleted transaction's
reference remains. -/
theorem delete_archival_counterexample :
    (deleteTransaction dBank1 0 "admin" 900).1 = .ok () ∧
    ((deleteTransaction dBank1 0 "admin" 900).2.transactions.filter
      (fun t => t.id == 0)) = [] ∧
    ((deleteTransaction dBank1 0 "admin" 900).2.deleted.map
      (fun d => d.reference)) = ["BILL-500"] ∧
    ((deleteTransaction dBank1 0 "admin" 900).2.receipts.filter
      (fun rc => rc.transactionId == "BILL-500")).length = 1 := by
  refine ⟨by rfl, by decide, by decide, by decide⟩

/-- C9 (amended).  Delete archival: deleting a found transaction (ids
distinct) succeeds, leaves no live transaction with that id, prepends
exactly one DeletedTransaction carrying the schema fields of the
original plus the admin, the fixed reason and the timestamp, and removes
only the first receipt whose transactionId is the object-id string:
every receipt keyed otherwise (in particular by the reference) survives. -/
theorem delete_archival_partial
    (b : Bank) (txId : Nat) (adminId : String) (now : Nat) (tx : Transaction)
    (hfind : findTx b txId = some tx)
    (hnd : (b.transactions.map (fun t => t.id)).Nodup) :
    (deleteTransaction b txId adminId now).1 = .ok () ∧
    ((deleteTransaction b txId adminId now).2.transactions.filter
      (fun t => t.id == txId)) = [] ∧
    (deleteTransaction b txId adminId now).2.deleted =
      { userId := tx.userId, accountNumber := tx.accountNumber,
        amount := tx.amount, type := tx.type, description := tx.description,
        balanceAfter := tx.balanceAfter, recipientAccount := tx.recipientAccount,
        reference := tx.reference, status := tx.status, currency := tx.currency,
        transferType := tx.transferType, recipientDetails := tx.recipientDetails,
        originalTransactionId := txId, deletedBy := adminId,
        deletionReason := "Admin deletion", deletedAt := now } :: b.deleted ∧
    (deleteTransaction b txId adminId now).2.receipts =
      eraseFirst (fun r => r.transactionId == toString txId) b.receipts ∧
    (deleteTransaction b txId adminId now).2.receipts.Sublist b.receipts ∧
    (∀ rc, rc ∈ b.receipts → (rc.transactionId == toString txId) = false →
      rc ∈ (deleteTransaction b txId adminId now).2.receipts) := by
  simp only [deleteTransaction, hfind]
  refine ⟨trivial, ?_, trivial, trivial, ?_, ?_⟩
  · exact filter_eraseFirst_eq_nil (fun t => t.id) txId b.transactions hnd
  · exact eraseFirst_sublist _ b.receipts
  · intro rc hm hne
    exact mem_eraseFirst_of_neg hm hne

/-- witness for C9 (amended): deleting the bill payment transaction
succeeds and leaves no live transaction with its id -/
theorem delete_archival_partial_witness :
    (dBank1.transactions.map (fun t => t.id)).Nodup ∧
    (deleteTransaction dBank1 0 "admin" 900).1 = .ok () ∧
    ((deleteTransaction dBank1 0 "admin" 900).2.transactions.filter
      (fun t => t.id == 0)) = [] := by
  have h := delete_archival_partial dBank1 0 "admin" 900
    ((findTx dBank1 0).getD hTx) (by rfl) (by decide)
  exact ⟨by decide, h.1, h.2.1⟩

end BankApp
